import Mathlib

/-!
Shallow embedding of the review aggregation-and-cache engine of the
`reputation_horizon` backend (`apps/backend/src`), together with theorems
settling the frozen claims C1..C10.

Conventions of the embedding:
* Python `datetime` values are modelled as naive timestamps `Int`
  (seconds); the library parser `datetime.fromisoformat` (composed with the
  `'Z' → '+00:00'` fix-up and `tzinfo` strip performed by the code) is an
  explicit parameter `parseIso : String → Option Int` (`none` models a raised
  `ValueError`).
* HTTP page requests are modelled by oracles `Nat → PageResult`
  (`PageResult.fail` covers a network error, a non-2xx status raised by
  `raise_for_status`, or a JSON decoding error — everything the per-page
  `try`/`except` of the fetch loops catches).
* Fallible Python code is `Except`-valued; a `try`/`except` is a `match`
  on the `Except`.
* pydantic model construction is a checked smart constructor; a missing
  required field or a violated field bound is `Except.error`, modelling
  `ValidationError`.
-/

namespace RepHorizon

/-- Decidable equality on `Except`, so concrete runs of the fallible
operations can be checked by evaluation. -/
instance {ε α : Type _} [DecidableEq ε] [DecidableEq α] : DecidableEq (Except ε α) := fun x y =>
  match x, y with
  | .ok a, .ok b =>
    if h : a = b then isTrue (h ▸ rfl) else isFalse (fun hh => h (Except.ok.inj hh))
  | .error a, .error b =>
    if h : a = b then isTrue (h ▸ rfl) else isFalse (fun hh => h (Except.error.inj hh))
  | .ok _, .error _ => isFalse (fun hh => Except.noConfusion hh)
  | .error _, .ok _ => isFalse (fun hh => Except.noConfusion hh)

/-- Canonical review record, `models.AppReview`.  The pydantic field
validation `rating ∈ [1,5]` is enforced by the smart constructor
`mkAppReview` below; raw construction is unchecked, mirroring how the
Python class is only ever instantiated through validation. -/
structure AppReview where
  id : String
  author : String
  rating : Nat
  title : Option String
  content : String
  date : String
  source : String
  helpful_count : Option Int
  app_version : Option String
deriving Repr, DecidableEq, Inhabited

/-- pydantic validation of `models.AppReview`: `rating` is declared
`ge=1, le=5`; construction with a rating outside that range raises
`ValidationError`. -/
def mkAppReview (id author : String) (rating : Nat) (title : Option String)
    (content date source : String) (helpful_count : Option Int)
    (app_version : Option String) : Except Unit AppReview :=
  if 1 ≤ rating ∧ rating ≤ 5 then
    .ok ⟨id, author, rating, title, content, date, source, helpful_count, app_version⟩
  else
    .error ()

/-- Raw upstream review object as delivered inside one page payload
(the dictionaries iterated by the `_parse_*_reviews` methods).  Each field
is `Option` to model `dict.get` with its default. -/
structure RawReview where
  id : Option String
  reviewer : Option String
  rating : Option Int
  title : Option String
  text : Option String
  date_time : Option String
  helpful_votes : Option Int
  helpful_count : Option Int
  likes : Option Int
  app_version : Option String
deriving Repr, DecidableEq, Inhabited

/-- One parsed Google Play record, `WextractorService._parse_google_reviews`
loop body: field remapping plus pydantic validation; a record that fails
validation is dropped (`except` + `continue`).  `nowIso` models the
`datetime.now().isoformat()` default for a missing timestamp. -/
def parseGoogleReview (nowIso : String) (r : RawReview) : Option AppReview :=
  (mkAppReview (r.id.getD "") (r.reviewer.getD "Anonymous")
      ((r.rating.getD 0).toNat) (some (r.title.getD ""))
      (r.text.getD "") (r.date_time.getD nowIso) "google"
      (some (r.helpful_votes.getD 0)) (some (r.app_version.getD ""))).toOption

/-- `WextractorService._parse_google_reviews`. -/
def parseGoogleReviews (nowIso : String) (raws : List RawReview) : List AppReview :=
  raws.filterMap (parseGoogleReview nowIso)

/-- One parsed App Store record, `WextractorService._parse_apple_reviews`
loop body. -/
def parseAppleReview (nowIso : String) (r : RawReview) : Option AppReview :=
  (mkAppReview (r.id.getD "") (r.reviewer.getD "Anonymous")
      ((r.rating.getD 0).toNat) r.title
      (r.text.getD "") (r.date_time.getD nowIso) "apple"
      (some (r.helpful_count.getD 0)) (some (r.app_version.getD ""))).toOption

/-- `WextractorService._parse_apple_reviews`. -/
def parseAppleReviews (nowIso : String) (raws : List RawReview) : List AppReview :=
  raws.filterMap (parseAppleReview nowIso)

/-- One parsed Trustpilot record, `WextractorService._parse_trustpilot_reviews`
loop body (`likes` maps to `helpful_count`, `app_version` is `None`). -/
def parseTrustpilotReview (nowIso : String) (r : RawReview) : Option AppReview :=
  (mkAppReview (r.id.getD "") (r.reviewer.getD "Anonymous")
      ((r.rating.getD 0).toNat) r.title
      (r.text.getD "") (r.date_time.getD nowIso) "trustpilot"
      (some (r.likes.getD 0)) none).toOption

/-- `WextractorService._parse_trustpilot_reviews`. -/
def parseTrustpilotReviews (nowIso : String) (raws : List RawReview) : List AppReview :=
  raws.filterMap (parseTrustpilotReview nowIso)

/-- Result of one upstream page request for the offset-paginated fetchers
(Google Play, App Store): either the `try` block raises (`fail`) or a page
of raw records is obtained. -/
inductive PageResult where
  | fail : PageResult
  | page : List RawReview → PageResult
deriving Repr, DecidableEq, Inhabited

/-- Result of one Trustpilot page request: on success also carries the
`next_page_cursor` field of the response (`none` models a missing or null
cursor; the empty string is a present-but-falsy cursor). -/
inductive TpPageResult where
  | fail : TpPageResult
  | page : List RawReview → Option String → TpPageResult
deriving Repr, DecidableEq, Inhabited

/-- Per-page duplicate filtering of the fetch loops: fold the page's parsed
records over the `seen_ids` set and the accumulator, dropping any record
whose `id` was already seen in this fetch call.  The seen set is modelled
as a list with membership. -/
def dedupStep (seen : List String) (acc : List AppReview)
    (pageReviews : List AppReview) : List String × List AppReview :=
  pageReviews.foldl
    (fun st r => if r.id ∈ st.1 then st else (r.id :: st.1, st.2 ++ [r]))
    (seen, acc)

/-- Offset-paginated fetch loop shared verbatim by
`_fetch_google_reviews` and `_fetch_apple_reviews`: for each page (up to
the remaining `budget`), a failed request breaks out returning the
accumulator; a successful page is parsed, deduplicated and appended, and a
page of fewer than 10 parsed records ends pagination. -/
def offsetFetchLoop (parse : List RawReview → List AppReview)
    (upstream : Nat → PageResult) :
    Nat → Nat → List String → List AppReview → List AppReview
  | 0, _, _, acc => acc
  | budget + 1, pageIdx, seen, acc =>
    match upstream pageIdx with
    | .fail => acc
    | .page raws =>
      let pageReviews := parse raws
      let st := dedupStep seen acc pageReviews
      if pageReviews.length < 10 then st.2
      else offsetFetchLoop parse upstream budget (pageIdx + 1) st.1 st.2

/-- Accumulated, deduplicated output of a list of successful pages
(specification helper used to state what the loops return). -/
def dedupPages (parse : List RawReview → List AppReview)
    (pages : List (List RawReview)) : List AppReview :=
  (pages.foldl (fun st p => dedupStep st.1 st.2 (parse p)) ([], [])).2

/-- `WextractorService._fetch_google_reviews` as a pure page-consuming
function (`pages_to_fetch = 5`).  The surrounding `httpx.AsyncClient`
construction is factored out into `fetchGoogleReviews`. -/
def fetchGoogleList (nowIso : String) (upstream : Nat → PageResult) : List AppReview :=
  offsetFetchLoop (parseGoogleReviews nowIso) upstream 5 0 [] []

/-- `WextractorService._fetch_google_reviews`: constructing the HTTP client
sits outside the per-page `try`, so a failure there (modelled by
`clientInit = false`) escapes the fetcher; every per-page failure is
swallowed by the loop. -/
def fetchGoogleReviews (nowIso : String) (clientInit : Bool)
    (upstream : Nat → PageResult) : Except Unit (List AppReview) :=
  if clientInit then .ok (fetchGoogleList nowIso upstream) else .error ()

/-- `WextractorService._fetch_apple_reviews` as a pure page-consuming
function (`pages_to_fetch = 5`). -/
def fetchAppleList (nowIso : String) (upstream : Nat → PageResult) : List AppReview :=
  offsetFetchLoop (parseAppleReviews nowIso) upstream 5 0 [] []

/-- `WextractorService._fetch_apple_reviews`. -/
def fetchAppleReviews (nowIso : String) (clientInit : Bool)
    (upstream : Nat → PageResult) : Except Unit (List AppReview) :=
  if clientInit then .ok (fetchAppleList nowIso upstream) else .error ()

/-- Trustpilot fetch loop, `WextractorService._fetch_trustpilot_reviews`:
requests are consumed in cursor order (the oracle is indexed by request
number, the cursor value only matters through its truthiness); a failed
request breaks out; after appending a page, pagination continues only when
the response carries a truthy `next_page_cursor` — a short page alone does
NOT stop the loop (the `< 10` check in the source only logs). -/
def tpFetchLoop (nowIso : String) (upstream : Nat → TpPageResult) :
    Nat → Nat → List String → List AppReview → List AppReview
  | 0, _, _, acc => acc
  | budget + 1, pageIdx, seen, acc =>
    match upstream pageIdx with
    | .fail => acc
    | .page raws cursor =>
      let pageReviews := parseTrustpilotReviews nowIso raws
      let st := dedupStep seen acc pageReviews
      match cursor with
      | none => st.2
      | some c => if c = "" then st.2
                  else tpFetchLoop nowIso upstream budget (pageIdx + 1) st.1 st.2

/-- `WextractorService._fetch_trustpilot_reviews` as a pure page-consuming
function (`pages_to_fetch = max_pages`). -/
def fetchTrustpilotList (nowIso : String) (upstream : Nat → TpPageResult)
    (maxPages : Nat) : List AppReview :=
  tpFetchLoop nowIso upstream maxPages 0 [] []

/-- `WextractorService._fetch_trustpilot_reviews`. -/
def fetchTrustpilotReviews (nowIso : String) (clientInit : Bool)
    (upstream : Nat → TpPageResult) (maxPages : Nat) : Except Unit (List AppReview) :=
  if clientInit then .ok (fetchTrustpilotList nowIso upstream maxPages) else .error ()

/-- Review statistics, `models.ReviewStats`.  `average_rating` is modelled
exactly as a rational (the only float in the engine; its 2-decimal rounding
is `round2` below and no claim depends on its value). -/
structure ReviewStats where
  total_reviews : Nat
  average_rating : ℚ
  rating_distribution : List (String × Nat)
  google_reviews : Nat
  apple_reviews : Nat
  trustpilot_reviews : Nat
deriving Repr, DecidableEq, Inhabited

/-- Initial rating histogram of `_calculate_stats`: all five keys present
with count 0. -/
def initialRatingDist : List (String × Nat) :=
  [("1", 0), ("2", 0), ("3", 0), ("4", 0), ("5", 0)]

/-- Model of the Python dict update `rating_dist[str(review.rating)] += 1`:
incrementing a key that is not present raises `KeyError`. -/
def distIncr (d : List (String × Nat)) (k : String) : Except Unit (List (String × Nat)) :=
  if (d.lookup k).isSome then
    .ok (d.map (fun p => if p.1 = k then (p.1, p.2 + 1) else p))
  else .error ()

/-- Sum of the histogram's counts (`sum(rating_distribution.values())`). -/
def distSum (d : List (String × Nat)) : Nat :=
  (d.map Prod.snd).sum

/-- Python `round(x, 2)` (to two decimals; the half-even tie rule of float
rounding is abstracted to the integer `round`). -/
def round2 (x : ℚ) : ℚ :=
  (round (x * 100) : ℤ) / 100

/-- Loop body of `_calculate_stats`: bump the histogram at the review's
rating key and add the rating to the running total. -/
def statsStep (st : List (String × Nat) × Nat) (r : AppReview) :
    Except Unit (List (String × Nat) × Nat) := do
  let d ← distIncr st.1 (toString r.rating)
  pure (d, st.2 + r.rating)

/-- `WextractorService._calculate_stats`: an empty review list yields the
all-zero statistics; otherwise the histogram and rating total are folded
over the reviews (a rating outside 1..5 would raise `KeyError`, but
pydantic-validated reviews never carry one) and the per-source counts are
whatever the caller passed. -/
def calculate_stats (reviews : List AppReview)
    (google_count apple_count trustpilot_count : Nat) : Except Unit ReviewStats :=
  if reviews = [] then
    .ok ⟨0, 0, initialRatingDist, 0, 0, 0⟩
  else do
    let acc ← reviews.foldlM statsStep (initialRatingDist, 0)
    let avg := round2 ((acc.2 : ℚ) / (reviews.length : ℚ))
    pure ⟨reviews.length, avg, acc.1, google_count, apple_count, trustpilot_count⟩

/-- Time-window filter of `WextractorService.get_reviews` (lines 60–79):
a review whose date parses is kept iff it is at or after the threshold; a
review whose date fails to parse is kept (fail-open `except` branch). -/
def filterByWindow (parseIso : String → Option Int) (threshold : Int)
    (reviews : List AppReview) : List AppReview :=
  reviews.foldl
    (fun acc r =>
      match parseIso r.date with
      | some d => if threshold ≤ d then acc ++ [r] else acc
      | none => acc ++ [r])
    []

/-- In-place `list.sort(key=lambda x: x.date, reverse=True)`: a stable
descending sort on the date string. -/
def sortByDateDesc (reviews : List AppReview) : List AppReview :=
  reviews.mergeSort (fun x y => y.date ≤ x.date)

/-- Environment of one `WextractorService.get_reviews` call: the wall
clock, the upstream page oracles, client construction outcomes, the
timestamp parser, and the randomness consumed by the mock generator.
`mockDateIso` is the isoformat of `now - hours_ago` hours as a function of
the drawn `hours_ago`; `mockRand` is the raw random draw behind
`random.randint` for the i-th mock record; `mockChoice` the raw draw
behind `random.choice`. -/
structure WexEnv where
  nowIso : String
  now : Int
  googleClientInit : Bool
  appleClientInit : Bool
  tpClientInit : Bool
  googlePages : Nat → PageResult
  applePages : Nat → PageResult
  tpPages : Nat → TpPageResult
  parseIso : String → Option Int
  mockDateIso : Nat → String
  mockChoice : Nat → Nat
  mockRand : Nat → Nat

/-- Return shape of `WextractorService.get_reviews` (the dict with keys
`reviews`, `stats`, `fetched_at`, `time_range_hours`). -/
structure WexResult where
  reviews : List AppReview
  stats : ReviewStats
  fetched_at : String
  time_range_hours : Nat
deriving Repr, DecidableEq, Inhabited

/-- One entry of the hard-coded mock data table of `_get_mock_reviews`. -/
structure MockEntry where
  author : String
  rating : Nat
  content : String
  source : String
  app_version : String
  helpful_count : Int
deriving Repr, DecidableEq, Inhabited

/-- Mock review data table of `_get_mock_reviews`. -/
def mockEntries : List MockEntry :=
  [⟨"Олександр К.", 5, "Чудовий додаток для вивчення мов! Дуже зручний інтерфейс та якісні уроки.", "google", "2.1.3", 12⟩,
   ⟨"Марія П.", 4, "Добре працює, але іноді повільно завантажується. В цілому рекомендую.", "google", "2.1.2", 8⟩,
   ⟨"Дмитро В.", 5, "Найкращий додаток для вивчення англійської! Вчителі професійні, ціни доступні.", "apple", "2.1.3", 15⟩,
   ⟨"Анна С.", 3, "Нормально, але є проблеми з відеозв'язком. Потрібно покращити стабільність.", "google", "2.1.1", 5⟩,
   ⟨"Ігор М.", 5, "Відмінний сервіс! За 3 місяці значно покращив рівень англійської. Дякую!", "apple", "2.1.3", 20⟩,
   ⟨"Катерина Л.", 4, "Дуже зручно планувати уроки. Вчителі відмінні, рекомендую спробувати.", "google", "2.1.2", 7⟩,
   ⟨"Володимир Т.", 2, "Додаток часто зависає. Потрібно виправити баги. Не рекомендую поки що.", "google", "2.1.0", 3⟩,
   ⟨"Олена Р.", 5, "Прекрасний додаток! Дуже задоволена якістю уроків та підходом вчителів.", "apple", "2.1.3", 18⟩,
   ⟨"Сергій К.", 4, "Хороший додаток, але потрібно додати більше мов. Поки що тільки англійська.", "google", "2.1.2", 9⟩,
   ⟨"Наталія Б.", 5, "Найкращий інвестиція в освіту! За рік вивчила англійську на рівні B2.", "apple", "2.1.3", 25⟩]

/-- Content variation pick of the mock generator (`random.choice` over the
three variations; the random index is reduced mod 3 so the pick is always
one of the three, as `random.choice` guarantees). -/
def mockContent (env : WexEnv) (idx : Nat) (c : String) : String :=
  [c, c ++ " Дуже рекомендую!", c ++ " Варто спробувати."].getD (env.mockChoice idx % 3) c

/-- Model of `hours_ago = random.randint(1, hours)` for the `idx`-th mock
record: `randint` raises `ValueError` when its range is empty
(`hours < 1`); otherwise the environment's raw draw is reduced into
`[1, hours]`, which is exactly what `randint` guarantees. -/
def randIntOneTo (env : WexEnv) (hours idx : Nat) : Except Unit Nat :=
  if 1 ≤ hours then .ok (1 + env.mockRand idx % hours) else .error ()

/-- One mock `AppReview` construction in `_get_mock_reviews`: draw
`hours_ago` (which raises for an empty window), then construct through
pydantic validation like every other construction (`title` is omitted and
defaults to `None`). -/
def mkMockReview (env : WexEnv) (hours idx : Nat) (e : MockEntry) : Except Unit AppReview := do
  let hoursAgo ← randIntOneTo env hours idx
  mkAppReview ("mock_" ++ e.source ++ "_" ++ toString idx) e.author e.rating none
    (mockContent env idx e.content) (env.mockDateIso hoursAgo) e.source
    (some e.helpful_count) (some e.app_version)

/-- Mock review list of `_get_mock_reviews`: three passes over the data
table, each record's id indexed by the running length of the accumulator. -/
def mockAllReviews (env : WexEnv) (hours : Nat) : Except Unit (List AppReview) :=
  (List.range 3).foldlM
    (fun acc _ =>
      mockEntries.foldlM
        (fun (acc : List AppReview) e => do
          let r ← mkMockReview env hours acc.length e
          pure (acc ++ [r]))
        acc)
    []

/-- `WextractorService._get_mock_reviews`: build the mock list, sort it
newest-first, count the google/apple reviews and compute statistics
(`trustpilot_count` left at its default 0). -/
def getMockReviews (env : WexEnv) (hours : Nat) : Except Unit WexResult := do
  let allMock ← mockAllReviews env hours
  let sorted := sortByDateDesc allMock
  let g := (sorted.filter (fun r => r.source == "google")).length
  let a := (sorted.filter (fun r => r.source == "apple")).length
  let stats ← calculate_stats sorted g a 0
  pure ⟨sorted, stats, env.nowIso, hours⟩

/-- Body of the `try` block of `WextractorService.get_reviews`: fetch the
three platforms, concatenate, filter by the time window, sort newest
first, partition the filtered list by source and compute statistics. -/
def wexGetReviewsBody (env : WexEnv) (hours maxTpPages : Nat) : Except Unit WexResult := do
  let timeThreshold := env.now - (hours : Int) * 3600
  let google ← fetchGoogleReviews env.nowIso env.googleClientInit env.googlePages
  let apple ← fetchAppleReviews env.nowIso env.appleClientInit env.applePages
  let tp ← fetchTrustpilotReviews env.nowIso env.tpClientInit env.tpPages maxTpPages
  let allReviews := google ++ apple ++ tp
  let filtered := filterByWindow env.parseIso timeThreshold allReviews
  let sorted := sortByDateDesc filtered
  let g := (sorted.filter (fun r => r.source == "google")).length
  let a := (sorted.filter (fun r => r.source == "apple")).length
  let t := (sorted.filter (fun r => r.source == "trustpilot")).length
  let stats ← calculate_stats sorted g a t
  pure ⟨sorted, stats, env.nowIso, hours⟩

/-- Errors `WextractorService.get_reviews` can raise to its caller. -/
inductive WexError where
  | valueError : WexError
  | uncaught : WexError
deriving Repr, DecidableEq

/-- Truthiness test `if not self.api_key` on the configured credential
(`None` or the empty string are falsy). -/
def apiKeyMissing (apiKey : Option String) : Bool :=
  match apiKey with
  | none => true
  | some k => k == ""

/-- `WextractorService.get_reviews`: raise `ValueError` when the API key
is not configured; otherwise run the aggregation body and, if anything in
it raises, fall back to the mock data (an exception escaping the mock
generator itself would propagate uncaught). -/
def wexGetReviews (apiKey : Option String) (env : WexEnv) (hours maxTpPages : Nat) :
    Except WexError WexResult :=
  if apiKeyMissing apiKey then .error .valueError
  else
    match wexGetReviewsBody env hours maxTpPages with
    | .ok r => .ok r
    | .error _ =>
      match getMockReviews env hours with
      | .ok m => .ok m
      | .error _ => .error .uncaught

/-- `models.ReviewsResponse`. -/
structure ReviewsResponse where
  reviews : List AppReview
  stats : ReviewStats
  fetched_at : String
  time_range_hours : Nat
deriving Repr, DecidableEq, Inhabited

/-- Stored row of the DuckDB `reviews` table (primary key `id`). -/
structure ReviewRow where
  id : String
  author : String
  rating : Nat
  title : Option String
  content : String
  date : String
  source : String
  helpful_count : Option Int
  app_version : Option String
  cached_at : Int
deriving Repr, DecidableEq, Inhabited

/-- Stored row of the DuckDB `cache_metadata` table (primary key
`cache_key`).  `rating_distribution` is stored as JSON text; since
`json.dumps`/`json.loads` round-trip the histogram, it is modelled by the
value itself.  `fetched_at` is stored as a parsed TIMESTAMP. -/
structure MetaRow where
  cache_key : String
  hours : Nat
  google_count : Nat
  apple_count : Nat
  total_count : Nat
  avg_rating : ℚ
  rating_distribution : List (String × Nat)
  fetched_at : Int
  cached_at : Int
  expires_at : Int
deriving Repr, DecidableEq, Inhabited

/-- The two tables of the cache database. -/
structure CacheDB where
  reviews : List ReviewRow
  cache_metadata : List MetaRow
deriving Repr, DecidableEq, Inhabited

/-- `CacheService._generate_cache_key`: `reviews_{hours}h`, with
`_{source_filter}` appended when the filter is truthy. -/
def generateCacheKey (hours : Nat) (sourceFilter : Option String) : String :=
  let base := "reviews_" ++ toString hours ++ "h"
  match sourceFilter with
  | some s => if s == "" then base else base ++ "_" ++ s
  | none => base

/-- pydantic construction of `models.ReviewStats` with each field given as
an optional keyword argument: a missing required field raises
`ValidationError` (all six fields are required), and `average_rating` is
validated `ge=0, le=5`. -/
def mkReviewStats (total : Option Nat) (avg : Option ℚ)
    (dist : Option (List (String × Nat))) (google : Option Nat)
    (apple : Option Nat) (trustpilot : Option Nat) : Except Unit ReviewStats :=
  match trustpilot with
  | none => .error ()
  | some t =>
    match total, avg, dist, google, apple with
    | some tv, some av, some dv, some gv, some apv =>
      if 0 ≤ av ∧ av ≤ 5 then .ok ⟨tv, av, dv, gv, apv, t⟩ else .error ()
    | _, _, _, _, _ => .error ()

/-- `INSERT OR REPLACE INTO reviews` for one review: the row with the same
primary key is replaced, `cached_at` taking its `CURRENT_TIMESTAMP`
default. -/
def upsertReviewRow (rows : List ReviewRow) (r : AppReview) (now : Int) : List ReviewRow :=
  (rows.filter (fun row => row.id != r.id)) ++
    [⟨r.id, r.author, r.rating, r.title, r.content, r.date, r.source,
      r.helpful_count, r.app_version, now⟩]

/-- `CacheService.cache_reviews`: a no-op when the DB connection failed to
initialize; otherwise, within one transaction, delete the key's metadata
row, insert a fresh one (parsing `fetched_at` with
`datetime.fromisoformat`, whose failure rolls the transaction back and
re-raises), and upsert every review row.  The several
`CURRENT_TIMESTAMP`/`datetime.now()` readings of one store are collapsed
to the single instant `now`. -/
def cache_reviews (db? : Option CacheDB) (resp : ReviewsResponse) (hours : Nat)
    (sourceFilter : Option String) (cacheDurationHours : Nat)
    (now : Int) (parseIso : String → Option Int) : Except Unit (Option CacheDB) :=
  match db? with
  | none => .ok none
  | some db =>
    let key := generateCacheKey hours sourceFilter
    let expiresAt := now + (cacheDurationHours : Int) * 3600
    match parseIso resp.fetched_at with
    | none => .error ()
    | some fa =>
      let keptMeta := db.cache_metadata.filter (fun m => m.cache_key != key)
      let newMeta : MetaRow :=
        ⟨key, hours, resp.stats.google_reviews, resp.stats.apple_reviews,
         resp.stats.total_reviews, resp.stats.average_rating,
         resp.stats.rating_distribution, fa, now, expiresAt⟩
      let newRows := resp.reviews.foldl (fun rows r => upsertReviewRow rows r now) db.reviews
      .ok (some ⟨newRows, keptMeta ++ [newMeta]⟩)

/-- Row ordering `ORDER BY date DESC` of the cached-review query. -/
def sortRowsByDateDesc (rows : List ReviewRow) : List ReviewRow :=
  rows.mergeSort (fun x y => y.date ≤ x.date)

/-- `CacheService.get_cached_reviews`: `None` when the connection is
absent, the key has no unexpired metadata row, the metadata row is gone,
or the row query returns no reviews; otherwise the rows are turned back
into `AppReview`s and the statistics are reconstructed — with the
`ReviewStats` constructor call omitting the required `trustpilot_reviews`
keyword, exactly as cache.py lines 207–213 do — and any exception on the
way is caught and turned into `None`.  `isoOfTime` models
`datetime.isoformat` on the stored `fetched_at`. -/
def get_cached_reviews (db? : Option CacheDB) (hours : Nat)
    (sourceFilter : Option String) (now : Int) (isoOfTime : Int → String) :
    Option ReviewsResponse :=
  match db? with
  | none => none
  | some db =>
    let key := generateCacheKey hours sourceFilter
    if !(db.cache_metadata.any (fun m => m.cache_key == key && decide (now < m.expires_at))) then
      none
    else
      match db.cache_metadata.find? (fun m => m.cache_key == key) with
      | none => none
      | some md =>
        let rows := db.reviews.filter (fun r =>
          decide (md.cached_at ≤ r.cached_at) &&
          (match sourceFilter with
           | some f => if f == "" then true else r.source == f
           | none => true))
        let sortedRows := sortRowsByDateDesc rows
        if sortedRows.isEmpty then none
        else
          match sortedRows.mapM (fun row =>
              mkAppReview row.id row.author row.rating row.title row.content
                row.date row.source row.helpful_count row.app_version) with
          | .error _ => none
          | .ok reviews =>
            match mkReviewStats (some md.total_count) (some md.avg_rating)
                (some md.rating_distribution) (some md.google_count)
                (some md.apple_count) none with
            | .error _ => none
            | .ok stats =>
              some ⟨reviews, stats, isoOfTime md.fetched_at, hours⟩

/-- Keyword binding of a Python call to `WextractorService.get_reviews`
against its signature `(self, hours=24, max_trustpilot_pages=20)`: an
unknown keyword raises `TypeError`; an omitted parameter takes its
default. -/
def bindWexGetReviewsArgs (kwargs : List (String × Nat)) : Except Unit (Nat × Nat) :=
  if kwargs.any (fun kv => kv.1 != "hours" && kv.1 != "max_trustpilot_pages") then
    .error ()
  else
    .ok ((kwargs.lookup "hours").getD 24, (kwargs.lookup "max_trustpilot_pages").getD 20)

/-- Errors `ReviewService.get_reviews` can re-raise to its caller. -/
inductive RSError where
  | typeError : RSError
  | wex : WexError → RSError
deriving Repr, DecidableEq

/-- Source-filter post-processing of `ReviewService.get_reviews`
(review_service.py lines 63–78): keep only records of the requested
source, overwrite the google/apple counts and the total, but leave
`rating_distribution`, `average_rating` and `trustpilot_reviews` of the
statistics untouched. -/
def applySourceFilter (fresh : WexResult) (sourceFilter : Option String) : WexResult :=
  match sourceFilter with
  | none => fresh
  | some f =>
    if f == "" then fresh
    else
      let filtered := fresh.reviews.filter (fun r => r.source == f)
      { fresh with
        reviews := filtered
        stats := { fresh.stats with
          google_reviews := (filtered.filter (fun r => r.source == "google")).length
          apple_reviews := (filtered.filter (fun r => r.source == "apple")).length
          total_reviews := filtered.length } }

/-- Environment of one `ReviewService.get_reviews` request. -/
structure RSEnv where
  apiKey : Option String
  wenv : WexEnv
  now : Int
  parseIso : String → Option Int
  isoOfTime : Int → String

/-- `ReviewService.get_reviews`: consult the cache unless `force_refresh`
is set (or caching disabled); on a miss call
`WextractorService.get_reviews(hours=hours, max_pages=max_pages)` — a call
that raises `TypeError`, since the callee's parameter is named
`max_trustpilot_pages` — apply the source filter, and write the result
back to the cache (a cache-write failure is swallowed).  Exceptions of the
fresh path are logged and re-raised. -/
def reviewServiceGetReviews (env : RSEnv) (db? : Option CacheDB) (hours : Nat)
    (sourceFilter : Option String) (cached forceRefresh : Bool) (maxPages : Nat) :
    Except RSError (ReviewsResponse × Option CacheDB) :=
  let cachedResp :=
    if cached && !forceRefresh then
      get_cached_reviews db? hours sourceFilter env.now env.isoOfTime
    else none
  match cachedResp with
  | some resp => .ok (resp, db?)
  | none =>
    match bindWexGetReviewsArgs [("hours", hours), ("max_pages", maxPages)] with
    | .error _ => .error .typeError
    | .ok args =>
      match wexGetReviews env.apiKey env.wenv args.1 args.2 with
      | .error e => .error (.wex e)
      | .ok fresh0 =>
        let fresh := applySourceFilter fresh0 sourceFilter
        let resp : ReviewsResponse :=
          ⟨fresh.reviews, fresh.stats, fresh.fetched_at, fresh.time_range_hours⟩
        if cached then
          match cache_reviews db? resp hours sourceFilter 24 env.now env.parseIso with
          | .ok db2 => .ok (resp, db2)
          | .error _ => .ok (resp, db?)
        else .ok (resp, db?)

/-! Theorems.  Shared structural lemmas come first, then one theorem per
claim (with its witness or counterexample where required). -/

/-- Every cache lookup misses: on the only path that survives the
emptiness checks, the `ReviewStats` reconstruction omits the required
`trustpilot_reviews` field, raises `ValidationError`, and the surrounding
`except` turns it into `None`. -/
theorem get_cached_reviews_eq_none (db? : Option CacheDB) (hours : Nat)
    (sourceFilter : Option String) (now : Int) (isoOfTime : Int → String) :
    get_cached_reviews db? hours sourceFilter now isoOfTime = none := by
  cases db? with
  | none => rfl
  | some db =>
    unfold get_cached_reviews
    dsimp only
    repeat' split <;> try rfl

/-- Review written in the C2 counter-scenario. -/
def c2Review : AppReview :=
  ⟨"r1", "alice", 5, none, "great", "2024-01-01T00:00:00", "google", some 0, none⟩

/-- Statistics written in the C2 counter-scenario (consistent with the
single stored review). -/
def c2Stats : ReviewStats :=
  ⟨1, 5, [("1", 0), ("2", 0), ("3", 0), ("4", 0), ("5", 1)], 1, 0, 0⟩

/-- Response stored in the C2 counter-scenario. -/
def c2Resp : ReviewsResponse := ⟨[c2Review], c2Stats, "2024-01-01T01:00:00", 24⟩

/-- Timestamp parser for the C2 counter-scenario. -/
def c2Parse : String → Option Int :=
  fun s => if s = "2024-01-01T01:00:00" then some 3600 else none

/-- Database state after the C2 store (store at time 3600, ttl 1 hour, so
the entry expires at 7200). -/
def c2Meta : MetaRow :=
  ⟨"reviews_24h", 24, 1, 0, 1, 5, [("1", 0), ("2", 0), ("3", 0), ("4", 0), ("5", 1)],
   3600, 3600, 7200⟩

/-- Review row after the C2 store. -/
def c2Row : ReviewRow :=
  ⟨"r1", "alice", 5, none, "great", "2024-01-01T00:00:00", "google", some 0, none, 3600⟩

/-- Cache tables after the C2 store. -/
def c2DB : CacheDB := ⟨[c2Row], [c2Meta]⟩

/-- C2: the cache round-trip property fails on the code.  Storing one
review with its statistics succeeds and leaves an unexpired metadata row
and a non-empty review table, yet the lookup at time 3700 — well before
the ttl expiry at 7200 — returns absent, because `get_cached_reviews`
rebuilds `ReviewStats` without the required `trustpilot_reviews` field
(cache.py lines 207–213), pydantic raises `ValidationError`, and the
handler returns `None`. -/
theorem C2_store_then_lookup_misses :
    cache_reviews (some ⟨[], []⟩) c2Resp 24 none 1 3600 c2Parse = .ok (some c2DB) ∧
    (∃ m ∈ c2DB.cache_metadata,
      m.cache_key = generateCacheKey 24 none ∧ (3700 : Int) < m.expires_at) ∧
    c2DB.reviews ≠ [] ∧
    get_cached_reviews (some c2DB) 24 none 3700 (fun _ => "") = none :=
  ⟨by decide, ⟨c2Meta, by decide, by decide, by decide⟩, by decide,
   get_cached_reviews_eq_none _ _ _ _ _⟩

/-- C10: a key whose stored entry has zero review rows is reported as a
cache miss even while an unexpired metadata entry for that key exists. -/
theorem C10_empty_entry_lookup_absent (db : CacheDB) (hours : Nat)
    (sourceFilter : Option String) (now : Int) (isoOfTime : Int → String)
    (hmeta : ∃ m ∈ db.cache_metadata,
      m.cache_key = generateCacheKey hours sourceFilter ∧ now < m.expires_at)
    (hrows : db.reviews = []) :
    get_cached_reviews (some db) hours sourceFilter now isoOfTime = none :=
  get_cached_reviews_eq_none _ _ _ _ _

/-- Witness for C10: a concrete store state with one unexpired metadata
row for `reviews_24h` and no review rows. -/
theorem C10_empty_entry_lookup_absent_witness :
    get_cached_reviews (some ⟨[], [⟨"reviews_24h", 24, 0, 0, 0, 0, [], 0, 0, 100⟩]⟩)
      24 none 5 (fun _ => "") = none :=
  C10_empty_entry_lookup_absent ⟨[], [⟨"reviews_24h", 24, 0, 0, 0, 0, [], 0, 0, 100⟩]⟩
    24 none 5 (fun _ => "")
    ⟨⟨"reviews_24h", 24, 0, 0, 0, 0, [], 0, 0, 100⟩, by decide, by decide, by decide⟩
    rfl

/-- Environment for the C8 counter-scenario (its oracles are never
consulted: the request fails before any fetch). -/
def c8Wenv : WexEnv :=
  ⟨"t", 0, true, true, true, fun _ => .fail, fun _ => .fail, fun _ => .fail,
   fun _ => none, fun _ => "d", fun _ => 0, fun _ => 0⟩

/-- Review-service environment for the C8 counter-scenario (API key
configured). -/
def c8Env : RSEnv := ⟨some "key", c8Wenv, 0, fun _ => none, fun _ => ""⟩

/-- C8: a forced refresh does skip the cache lookup, but the fresh
aggregation never happens: the service calls
`WextractorService.get_reviews(hours=…, max_pages=…)` while the callee's
parameter is named `max_trustpilot_pages`, so keyword binding raises
`TypeError` and the request errors out with no cache write. -/
theorem C8_force_refresh_raises_type_error :
    bindWexGetReviewsArgs [("hours", 24), ("max_pages", 20)] = .error () ∧
    reviewServiceGetReviews c8Env (some ⟨[], []⟩) 24 none true true 20 =
      .error .typeError := by
  exact ⟨by decide, by decide⟩

/-- Folding the empty page changes nothing. -/
theorem dedupStep_nil (seen : List String) (acc : List AppReview) :
    dedupStep seen acc [] = (seen, acc) := rfl

/-- One step of the per-page dedup fold. -/
theorem dedupStep_cons (seen : List String) (acc : List AppReview)
    (r : AppReview) (rest : List AppReview) :
    dedupStep seen acc (r :: rest) =
      if r.id ∈ seen then dedupStep seen acc rest
      else dedupStep (r.id :: seen) (acc ++ [r]) rest := by
  simp only [dedupStep, List.foldl_cons]
  by_cases h : r.id ∈ seen <;> simp [h]

/-- Invariant of the per-page dedup fold: distinctness of the
accumulator's ids and their containment in the seen set are preserved, and
the seen set only grows. -/
theorem dedupStep_invariant (pageReviews : List AppReview) :
    ∀ seen acc, (acc.map AppReview.id).Nodup → (∀ r ∈ acc, r.id ∈ seen) →
      (((dedupStep seen acc pageReviews).2.map AppReview.id).Nodup ∧
        ∀ r ∈ (dedupStep seen acc pageReviews).2, r.id ∈ (dedupStep seen acc pageReviews).1) ∧
      ∀ s ∈ seen, s ∈ (dedupStep seen acc pageReviews).1 := by
  induction pageReviews with
  | nil => intro seen acc h1 h2; exact ⟨⟨h1, h2⟩, fun s hs => hs⟩
  | cons r rest ih =>
    intro seen acc h1 h2
    rw [dedupStep_cons]
    by_cases hr : r.id ∈ seen
    · rw [if_pos hr]; exact ih seen acc h1 h2
    · rw [if_neg hr]
      have hacc : ((acc ++ [r]).map AppReview.id).Nodup := by
        rw [List.map_append]
        refine List.Nodup.append h1 (by simp) ?_
        intro x hx hxr
        simp only [List.map_cons, List.map_nil, List.mem_singleton] at hxr
        obtain ⟨a, ha, hax⟩ := List.mem_map.mp hx
        exact hr (hxr ▸ hax ▸ h2 a ha)
      have hin : ∀ x ∈ acc ++ [r], x.id ∈ r.id :: seen := by
        intro x hx
        rcases List.mem_append.mp hx with hx | hx
        · exact List.mem_cons_of_mem _ (h2 x hx)
        · rw [List.mem_singleton] at hx
          subst hx; exact List.mem_cons_self _ _
      have hrest := ih (r.id :: seen) (acc ++ [r]) hacc hin
      exact ⟨hrest.1, fun s hs => hrest.2 s (List.mem_cons_of_mem _ hs)⟩

/-- Provenance of the dedup fold: every record of the result came from the
accumulator or from the folded page. -/
theorem dedupStep_mem (pageReviews : List AppReview) :
    ∀ seen acc r, r ∈ (dedupStep seen acc pageReviews).2 → r ∈ acc ∨ r ∈ pageReviews := by
  induction pageReviews with
  | nil => intro seen acc r h; exact Or.inl h
  | cons x rest ih =>
    intro seen acc r h
    rw [dedupStep_cons] at h
    by_cases hx : x.id ∈ seen
    · rw [if_pos hx] at h
      rcases ih _ _ _ h with h | h
      · exact Or.inl h
      · exact Or.inr (List.mem_cons_of_mem _ h)
    · rw [if_neg hx] at h
      rcases ih _ _ _ h with h | h
      · rcases List.mem_append.mp h with h | h
        · exact Or.inl h
        · rw [List.mem_singleton] at h
          subst h; exact Or.inr (List.mem_cons_self _ _)
      · exact Or.inr (List.mem_cons_of_mem _ h)

/-- Stopped after a full first page and a short second page: the
offset-paginated loop's output is exactly the deduplicated content of the
first two pages, whatever the oracle would serve beyond them. -/
theorem offsetFetchLoop_two_pages (parse : List RawReview → List AppReview)
    (u : Nat → PageResult) (p0 p1 : List RawReview)
    (h0 : u 0 = .page p0) (h1 : u 1 = .page p1)
    (hfull : 10 ≤ (parse p0).length) (hshort : (parse p1).length < 10) :
    offsetFetchLoop parse u 5 0 [] [] = dedupPages parse [p0, p1] := by
  unfold offsetFetchLoop
  rw [h0]
  dsimp only
  rw [if_neg (Nat.not_lt.mpr hfull)]
  unfold offsetFetchLoop
  rw [h1]
  dsimp only
  rw [if_pos hshort]
  rfl

/-- Raw Trustpilot review used in the C3 counter-scenario. -/
def c3Raw (s : String) : RawReview :=
  ⟨some s, none, some 5, none, none, some "2024-01-01", none, none, none, none⟩

/-- Trustpilot page oracle of the C3 counter-scenario: a full first page,
a second page of only 4 records that still carries a continuation cursor,
and a third page. -/
def c3TpPages : Nat → TpPageResult
  | 0 => .page [c3Raw "a0", c3Raw "a1", c3Raw "a2", c3Raw "a3", c3Raw "a4",
                c3Raw "a5", c3Raw "a6", c3Raw "a7", c3Raw "a8", c3Raw "a9"] (some "cursor1")
  | 1 => .page [c3Raw "b0", c3Raw "b1", c3Raw "b2", c3Raw "b3"] (some "cursor2")
  | 2 => .page [c3Raw "p2"] none
  | _ => .fail

/-- Counterexample to C3: against the Trustpilot fetcher, a second page of
4 records (fewer than the nominal page size of 10, first conjunct) does
NOT stop pagination — the output ends with the record `p2` of the third
page, even though the 20-page budget was nowhere near exhausted.  The
source's short-page check (wextractor.py line 296) only logs. -/
theorem C3_trustpilot_short_page_does_not_stop :
    (parseTrustpilotReviews "now" [c3Raw "b0", c3Raw "b1", c3Raw "b2", c3Raw "b3"]).length = 4 ∧
    (fetchTrustpilotList "now" c3TpPages 20).map AppReview.id =
      ["a0", "a1", "a2", "a3", "a4", "a5", "a6", "a7", "a8", "a9",
       "b0", "b1", "b2", "b3", "p2"] := by
  exact ⟨by decide, by decide⟩

/-- C3 (amended): for the Google Play and App Store fetchers a page of
fewer than 10 parsed records ends pagination even though the page budget
(5) is not exhausted — a full first page followed by a 4-record second
page yields exactly the deduplicated first two pages, no matter what later
pages would contain.  (The Trustpilot fetcher does not have this rule; see
the counterexample.) -/
theorem C3_short_page_stops_google_apple (nowIso : String)
    (gu au : Nat → PageResult) (p0 p1 q0 q1 : List RawReview)
    (hg0 : gu 0 = .page p0) (hg1 : gu 1 = .page p1)
    (hgfull : 10 ≤ (parseGoogleReviews nowIso p0).length)
    (hgshort : (parseGoogleReviews nowIso p1).length < 10)
    (ha0 : au 0 = .page q0) (ha1 : au 1 = .page q1)
    (hafull : 10 ≤ (parseAppleReviews nowIso q0).length)
    (hashort : (parseAppleReviews nowIso q1).length < 10) :
    fetchGoogleList nowIso gu = dedupPages (parseGoogleReviews nowIso) [p0, p1] ∧
    fetchAppleList nowIso au = dedupPages (parseAppleReviews nowIso) [q0, q1] :=
  ⟨offsetFetchLoop_two_pages _ gu p0 p1 hg0 hg1 hgfull hgshort,
   offsetFetchLoop_two_pages _ au q0 q1 ha0 ha1 hafull hashort⟩

/-- Full 10-record page of the C3 witness. -/
def c3FullPage : List RawReview :=
  [c3Raw "g0", c3Raw "g1", c3Raw "g2", c3Raw "g3", c3Raw "g4",
   c3Raw "g5", c3Raw "g6", c3Raw "g7", c3Raw "g8", c3Raw "g9"]

/-- Short 4-record second page of the C3 witness. -/
def c3ShortPage : List RawReview :=
  [c3Raw "h0", c3Raw "h1", c3Raw "h2", c3Raw "h3"]

/-- Offset-page oracle of the C3 witness. -/
def c3OffsetPages : Nat → PageResult
  | 0 => .page c3FullPage
  | 1 => .page c3ShortPage
  | _ => .fail

/-- Witness for the amended C3 at a concrete oracle. -/
theorem C3_short_page_stops_google_apple_witness :
    fetchGoogleList "n" c3OffsetPages = dedupPages (parseGoogleReviews "n") [c3FullPage, c3ShortPage] ∧
    fetchAppleList "n" c3OffsetPages = dedupPages (parseAppleReviews "n") [c3FullPage, c3ShortPage] :=
  C3_short_page_stops_google_apple "n" c3OffsetPages c3OffsetPages
    c3FullPage c3ShortPage c3FullPage c3ShortPage
    rfl rfl (by decide) (by decide) rfl rfl (by decide) (by decide)

/-- The offset-paginated loop never emits two records with the same id. -/
theorem offsetFetchLoop_nodup (parse : List RawReview → List AppReview)
    (u : Nat → PageResult) :
    ∀ budget idx seen acc, (acc.map AppReview.id).Nodup → (∀ r ∈ acc, r.id ∈ seen) →
      ((offsetFetchLoop parse u budget idx seen acc).map AppReview.id).Nodup := by
  intro budget
  induction budget with
  | zero => intro idx seen acc h1 _; exact h1
  | succ b ih =>
    intro idx seen acc h1 h2
    unfold offsetFetchLoop
    cases hu : u idx with
    | fail => exact h1
    | page raws =>
      dsimp only
      have hstep := dedupStep_invariant (parse raws) seen acc h1 h2
      split
      · exact hstep.1.1
      · exact ih _ _ _ hstep.1.1 hstep.1.2

/-- Every record the offset-paginated loop emits satisfies any property
holding of the accumulator and of all parsed records. -/
theorem offsetFetchLoop_prop (P : AppReview → Prop)
    (parse : List RawReview → List AppReview) (u : Nat → PageResult)
    (hp : ∀ raws r, r ∈ parse raws → P r) :
    ∀ budget idx seen acc, (∀ r ∈ acc, P r) →
      ∀ r ∈ offsetFetchLoop parse u budget idx seen acc, P r := by
  intro budget
  induction budget with
  | zero => intro idx seen acc hacc; exact hacc
  | succ b ih =>
    intro idx seen acc hacc
    unfold offsetFetchLoop
    cases hu : u idx with
    | fail => exact hacc
    | page raws =>
      dsimp only
      have hstep : ∀ r ∈ (dedupStep seen acc (parse raws)).2, P r := by
        intro r hr
        rcases dedupStep_mem (parse raws) seen acc r hr with h | h
        · exact hacc r h
        · exact hp raws r h
      split
      · exact hstep
      · exact ih _ _ _ hstep

/-- The Trustpilot loop never emits two records with the same id. -/
theorem tpFetchLoop_nodup (nowIso : String) (u : Nat → TpPageResult) :
    ∀ budget idx seen acc, (acc.map AppReview.id).Nodup → (∀ r ∈ acc, r.id ∈ seen) →
      ((tpFetchLoop nowIso u budget idx seen acc).map AppReview.id).Nodup := by
  intro budget
  induction budget with
  | zero => intro idx seen acc h1 _; exact h1
  | succ b ih =>
    intro idx seen acc h1 h2
    unfold tpFetchLoop
    cases hu : u idx with
    | fail => exact h1
    | page raws cursor =>
      dsimp only
      have hstep := dedupStep_invariant (parseTrustpilotReviews nowIso raws) seen acc h1 h2
      cases cursor with
      | none => exact hstep.1.1
      | some c =>
        dsimp only
        split
        · exact hstep.1.1
        · exact ih _ _ _ hstep.1.1 hstep.1.2

/-- Every record the Trustpilot loop emits satisfies any property holding
of the accumulator and of all parsed records. -/
theorem tpFetchLoop_prop (P : AppReview → Prop) (nowIso : String)
    (u : Nat → TpPageResult)
    (hp : ∀ raws r, r ∈ parseTrustpilotReviews nowIso raws → P r) :
    ∀ budget idx seen acc, (∀ r ∈ acc, P r) →
      ∀ r ∈ tpFetchLoop nowIso u budget idx seen acc, P r := by
  intro budget
  induction budget with
  | zero => intro idx seen acc hacc; exact hacc
  | succ b ih =>
    intro idx seen acc hacc
    unfold tpFetchLoop
    cases hu : u idx with
    | fail => exact hacc
    | page raws cursor =>
      dsimp only
      have hstep : ∀ r ∈ (dedupStep seen acc (parseTrustpilotReviews nowIso raws)).2, P r := by
        intro r hr
        rcases dedupStep_mem (parseTrustpilotReviews nowIso raws) seen acc r hr with h | h
        · exact hacc r h
        · exact hp raws r h
      cases cursor with
      | none => exact hstep
      | some c =>
        dsimp only
        split
        · exact hstep
        · exact ih _ _ _ hstep

/-- A successful `mkAppReview` propagates its field arguments. -/
theorem mkAppReview_ok_fields {i a : String} {ra : Nat} {t : Option String}
    {c d s : String} {h : Option Int} {v : Option String} {r : AppReview}
    (hok : mkAppReview i a ra t c d s h v = .ok r) :
    r.id = i ∧ r.source = s ∧ r.rating = ra ∧ 1 ≤ ra ∧ ra ≤ 5 := by
  unfold mkAppReview at hok
  by_cases hcond : 1 ≤ ra ∧ ra ≤ 5
  · rw [if_pos hcond] at hok
    cases hok
    exact ⟨rfl, rfl, rfl, hcond.1, hcond.2⟩
  · rw [if_neg hcond] at hok
    exact Except.noConfusion hok

/-- `Except.toOption` returns `some` exactly on `ok`. -/
theorem except_toOption_eq_some {ε α : Type _} {e : Except ε α} {a : α} :
    e.toOption = some a ↔ e = .ok a := by
  cases e <;> simp [Except.toOption]

/-- Every record `_parse_google_reviews` emits is labelled `google`. -/
theorem parseGoogleReviews_source (nowIso : String) (raws : List RawReview) :
    ∀ r ∈ parseGoogleReviews nowIso raws, r.source = "google" := by
  intro r hr
  obtain ⟨a, _, hpa⟩ := List.mem_filterMap.mp hr
  exact (mkAppReview_ok_fields (except_toOption_eq_some.mp hpa)).2.1

/-- Every record `_parse_apple_reviews` emits is labelled `apple`. -/
theorem parseAppleReviews_source (nowIso : String) (raws : List RawReview) :
    ∀ r ∈ parseAppleReviews nowIso raws, r.source = "apple" := by
  intro r hr
  obtain ⟨a, _, hpa⟩ := List.mem_filterMap.mp hr
  exact (mkAppReview_ok_fields (except_toOption_eq_some.mp hpa)).2.1

/-- Every record `_parse_trustpilot_reviews` emits is labelled
`trustpilot`. -/
theorem parseTrustpilotReviews_source (nowIso : String) (raws : List RawReview) :
    ∀ r ∈ parseTrustpilotReviews nowIso raws, r.source = "trustpilot" := by
  intro r hr
  obtain ⟨a, _, hpa⟩ := List.mem_filterMap.mp hr
  exact (mkAppReview_ok_fields (except_toOption_eq_some.mp hpa)).2.1

/-- Ids of one fetcher's output are distinct within one call (all three
fetchers). -/
theorem fetch_ids_nodup (nowIso : String) (gu au : Nat → PageResult)
    (tu : Nat → TpPageResult) (maxPages : Nat) :
    ((fetchGoogleList nowIso gu).map AppReview.id).Nodup ∧
    ((fetchAppleList nowIso au).map AppReview.id).Nodup ∧
    ((fetchTrustpilotList nowIso tu maxPages).map AppReview.id).Nodup :=
  ⟨offsetFetchLoop_nodup _ gu 5 0 [] [] (by simp) (by simp),
   offsetFetchLoop_nodup _ au 5 0 [] [] (by simp) (by simp),
   tpFetchLoop_nodup nowIso tu maxPages 0 [] [] (by simp) (by simp)⟩

/-- Distinct ids within a source-constant list give distinct
`(source, id)` pairs. -/
theorem pairs_nodup_of_ids_nodup (l : List AppReview)
    (h : (l.map AppReview.id).Nodup) :
    (l.map (fun r => (r.source, r.id))).Nodup := by
  refine List.Nodup.of_map Prod.snd ?_
  rw [List.map_map]
  exact h

/-- C4: within one fetch call each fetcher's output never contains two
records with the same id (first three conjuncts), and across one
aggregation run — the concatenation of the three fetchers' outputs — no
two records share the same `(source, id)` pair, because each fetcher's
records all carry its own source label. -/
theorem C4_fetch_deduplication (nowIso : String) (gu au : Nat → PageResult)
    (tu : Nat → TpPageResult) (maxPages : Nat) :
    ((fetchGoogleList nowIso gu).map AppReview.id).Nodup ∧
    ((fetchAppleList nowIso au).map AppReview.id).Nodup ∧
    ((fetchTrustpilotList nowIso tu maxPages).map AppReview.id).Nodup ∧
    ((fetchGoogleList nowIso gu ++ fetchAppleList nowIso au ++
        fetchTrustpilotList nowIso tu maxPages).map
      (fun r => (r.source, r.id))).Nodup := by
  obtain ⟨hg, ha, ht⟩ := fetch_ids_nodup nowIso gu au tu maxPages
  have hgs : ∀ r ∈ fetchGoogleList nowIso gu, r.source = "google" :=
    offsetFetchLoop_prop _ _ gu (parseGoogleReviews_source nowIso) 5 0 [] [] (by simp)
  have has : ∀ r ∈ fetchAppleList nowIso au, r.source = "apple" :=
    offsetFetchLoop_prop _ _ au (parseAppleReviews_source nowIso) 5 0 [] [] (by simp)
  have hts : ∀ r ∈ fetchTrustpilotList nowIso tu maxPages, r.source = "trustpilot" :=
    tpFetchLoop_prop _ nowIso tu (parseTrustpilotReviews_source nowIso) maxPages 0 [] [] (by simp)
  refine ⟨hg, ha, ht, ?_⟩
  rw [List.map_append, List.map_append]
  have hsrc : ∀ (l : List AppReview) (s : String), (∀ r ∈ l, r.source = s) →
      ∀ p ∈ l.map (fun r => (r.source, r.id)), p.1 = s := by
    intro l s hl p hp
    obtain ⟨r, hr, hrp⟩ := List.mem_map.mp hp
    rw [← hrp]
    exact hl r hr
  refine List.Nodup.append (List.Nodup.append (pairs_nodup_of_ids_nodup _ hg)
      (pairs_nodup_of_ids_nodup _ ha) ?_)
    (pairs_nodup_of_ids_nodup _ ht) ?_
  · intro p hp1 hp2
    have h1 := hsrc _ _ hgs p hp1
    have h2 := hsrc _ _ has p hp2
    rw [h1] at h2
    exact absurd h2 (by decide)
  · intro p hp1 hp2
    have h2 := hsrc _ _ hts p hp2
    rcases List.mem_append.mp hp1 with hp1 | hp1
    · have h1 := hsrc _ _ hgs p hp1
      rw [h1] at h2
      exact absurd h2 (by decide)
    · have h1 := hsrc _ _ has p hp1
      rw [h1] at h2
      exact absurd h2 (by decide)

/-- Pages `idx, idx+1, …, idx+k-1` of a page function (specification
helper naming the pages that succeeded before a failure). -/
def pagePrefix (ps : Nat → List RawReview) (idx : Nat) : Nat → List (List RawReview)
  | 0 => []
  | k + 1 => ps idx :: pagePrefix ps (idx + 1) k

/-- When the first failure of the offset oracle comes at relative page
`k` (every earlier page a full success), the loop returns exactly the
deduplicated accumulation of those `k` pages. -/
theorem offsetFetchLoop_fail_prefix (parse : List RawReview → List AppReview)
    (u : Nat → PageResult) (ps : Nat → List RawReview) :
    ∀ k budget idx seen acc, k < budget →
      (∀ i, i < k → u (idx + i) = .page (ps (idx + i)) ∧ 10 ≤ (parse (ps (idx + i))).length) →
      u (idx + k) = .fail →
      offsetFetchLoop parse u budget idx seen acc =
        ((pagePrefix ps idx k).foldl (fun st p => dedupStep st.1 st.2 (parse p)) (seen, acc)).2 := by
  intro k
  induction k with
  | zero =>
    intro budget idx seen acc hk _ hfail
    cases budget with
    | zero => omega
    | succ b =>
      rw [Nat.add_zero] at hfail
      unfold offsetFetchLoop
      rw [hfail]
      rfl
  | succ n ih =>
    intro budget idx seen acc hk hsucc hfail
    cases budget with
    | zero => omega
    | succ b =>
      obtain ⟨hpage, hfull⟩ := hsucc 0 (Nat.succ_pos n)
      rw [Nat.add_zero] at hpage hfull
      unfold offsetFetchLoop
      rw [hpage]
      dsimp only
      rw [if_neg (Nat.not_lt.mpr hfull)]
      rw [ih b (idx + 1) _ _ (by omega)
        (fun i hi => by
          have hh := hsucc (i + 1) (by omega)
          rwa [show idx + (i + 1) = idx + 1 + i by omega] at hh)
        (by rw [show idx + 1 + n = idx + (n + 1) by omega]; exact hfail)]
      rfl

/-- When the first failure of the Trustpilot oracle comes at relative
page `k` (every earlier page a success carrying a truthy continuation
cursor), the loop returns exactly the deduplicated accumulation of those
`k` pages. -/
theorem tpFetchLoop_fail_prefix (nowIso : String) (u : Nat → TpPageResult)
    (ps : Nat → List RawReview) (cs : Nat → String) :
    ∀ k budget idx seen acc, k < budget →
      (∀ i, i < k → u (idx + i) = .page (ps (idx + i)) (some (cs (idx + i))) ∧ cs (idx + i) ≠ "") →
      u (idx + k) = .fail →
      tpFetchLoop nowIso u budget idx seen acc =
        ((pagePrefix ps idx k).foldl
          (fun st p => dedupStep st.1 st.2 (parseTrustpilotReviews nowIso p)) (seen, acc)).2 := by
  intro k
  induction k with
  | zero =>
    intro budget idx seen acc hk _ hfail
    cases budget with
    | zero => omega
    | succ b =>
      rw [Nat.add_zero] at hfail
      unfold tpFetchLoop
      rw [hfail]
      rfl
  | succ n ih =>
    intro budget idx seen acc hk hsucc hfail
    cases budget with
    | zero => omega
    | succ b =>
      obtain ⟨hpage, hcursor⟩ := hsucc 0 (Nat.succ_pos n)
      rw [Nat.add_zero] at hpage hcursor
      unfold tpFetchLoop
      rw [hpage]
      dsimp only
      rw [if_neg hcursor]
      rw [ih b (idx + 1) _ _ (by omega)
        (fun i hi => by
          have hh := hsucc (i + 1) (by omega)
          rwa [show idx + (i + 1) = idx + 1 + i by omega] at hh)
        (by rw [show idx + 1 + n = idx + (n + 1) by omega]; exact hfail)]
      rfl

/-- C5: when some page request of a fetch call fails, the fetcher raises
nothing and returns exactly what it accumulated from the pages that
succeeded before the failure — stated for all three fetchers (the first
failure at relative page `k`, every earlier page a full success /
cursor-carrying success) — and a failing first page yields the empty
sequence. -/
theorem C5_page_failure_returns_accumulated (nowIso : String)
    (gu au : Nat → PageResult) (tu : Nat → TpPageResult) (maxPages : Nat)
    (ps qs ts : Nat → List RawReview) (cs : Nat → String) :
    (∀ k, k < 5 →
      (∀ i, i < k → gu i = .page (ps i) ∧ 10 ≤ (parseGoogleReviews nowIso (ps i)).length) →
      gu k = .fail →
      fetchGoogleReviews nowIso true gu =
        .ok (dedupPages (parseGoogleReviews nowIso) (pagePrefix ps 0 k))) ∧
    (∀ k, k < 5 →
      (∀ i, i < k → au i = .page (qs i) ∧ 10 ≤ (parseAppleReviews nowIso (qs i)).length) →
      au k = .fail →
      fetchAppleReviews nowIso true au =
        .ok (dedupPages (parseAppleReviews nowIso) (pagePrefix qs 0 k))) ∧
    (∀ k, k < maxPages →
      (∀ i, i < k → tu i = .page (ts i) (some (cs i)) ∧ cs i ≠ "") →
      tu k = .fail →
      fetchTrustpilotReviews nowIso true tu maxPages =
        .ok (dedupPages (parseTrustpilotReviews nowIso) (pagePrefix ts 0 k))) ∧
    (gu 0 = .fail → fetchGoogleReviews nowIso true gu = .ok []) ∧
    (au 0 = .fail → fetchAppleReviews nowIso true au = .ok []) ∧
    (0 < maxPages → tu 0 = .fail → fetchTrustpilotReviews nowIso true tu maxPages = .ok []) := by
  have hgo : ∀ k, k < 5 →
      (∀ i, i < k → gu i = .page (ps i) ∧ 10 ≤ (parseGoogleReviews nowIso (ps i)).length) →
      gu k = .fail →
      fetchGoogleList nowIso gu = dedupPages (parseGoogleReviews nowIso) (pagePrefix ps 0 k) := by
    intro k hk hpre hfail
    exact offsetFetchLoop_fail_prefix _ gu ps k 5 0 [] [] hk
      (fun i hi => by simpa using hpre i hi) (by simpa using hfail)
  have hao : ∀ k, k < 5 →
      (∀ i, i < k → au i = .page (qs i) ∧ 10 ≤ (parseAppleReviews nowIso (qs i)).length) →
      au k = .fail →
      fetchAppleList nowIso au = dedupPages (parseAppleReviews nowIso) (pagePrefix qs 0 k) := by
    intro k hk hpre hfail
    exact offsetFetchLoop_fail_prefix _ au qs k 5 0 [] [] hk
      (fun i hi => by simpa using hpre i hi) (by simpa using hfail)
  have hto : ∀ k, k < maxPages →
      (∀ i, i < k → tu i = .page (ts i) (some (cs i)) ∧ cs i ≠ "") →
      tu k = .fail →
      fetchTrustpilotList nowIso tu maxPages =
        dedupPages (parseTrustpilotReviews nowIso) (pagePrefix ts 0 k) := by
    intro k hk hpre hfail
    exact tpFetchLoop_fail_prefix nowIso tu ts cs k maxPages 0 [] [] hk
      (fun i hi => by simpa using hpre i hi) (by simpa using hfail)
  refine ⟨fun k hk hpre hfail => ?_, fun k hk hpre hfail => ?_, fun k hk hpre hfail => ?_,
    fun hfail => ?_, fun hfail => ?_, fun hpos hfail => ?_⟩
  · rw [show fetchGoogleReviews nowIso true gu = .ok (fetchGoogleList nowIso gu) from rfl,
      hgo k hk hpre hfail]
  · rw [show fetchAppleReviews nowIso true au = .ok (fetchAppleList nowIso au) from rfl,
      hao k hk hpre hfail]
  · rw [show fetchTrustpilotReviews nowIso true tu maxPages =
        .ok (fetchTrustpilotList nowIso tu maxPages) from rfl,
      hto k hk hpre hfail]
  · rw [show fetchGoogleReviews nowIso true gu = .ok (fetchGoogleList nowIso gu) from rfl,
      hgo 0 (by omega) (by omega) hfail]
    rfl
  · rw [show fetchAppleReviews nowIso true au = .ok (fetchAppleList nowIso au) from rfl,
      hao 0 (by omega) (by omega) hfail]
    rfl
  · rw [show fetchTrustpilotReviews nowIso true tu maxPages =
        .ok (fetchTrustpilotList nowIso tu maxPages) from rfl,
      hto 0 hpos (by omega) hfail]
    rfl

/-- Page oracle of the C5 witness: one full page, then a failure. -/
def c5Pages : Nat → PageResult
  | 0 => .page c3FullPage
  | _ => .fail

/-- Witness for C5: with a full first page and a failing second request,
the Google fetcher returns the deduplicated first page without raising. -/
theorem C5_page_failure_returns_accumulated_witness :
    fetchGoogleReviews "n" true c5Pages =
      .ok (dedupPages (parseGoogleReviews "n") (pagePrefix (fun _ => c3FullPage) 0 1)) :=
  (C5_page_failure_returns_accumulated "n" c5Pages c5Pages (fun _ => .fail) 5
      (fun _ => c3FullPage) (fun _ => c3FullPage) (fun _ => []) (fun _ => "c")).1
    1 (by omega)
    (fun i hi => by
      have : i = 0 := by omega
      subst this
      exact ⟨rfl, by decide⟩)
    rfl

/-- The accumulating loop of the window filter appends the records the
filter predicate keeps. -/
theorem filterByWindow_append (parseIso : String → Option Int) (threshold : Int) :
    ∀ (rs acc : List AppReview),
      rs.foldl
        (fun acc r =>
          match parseIso r.date with
          | some d => if threshold ≤ d then acc ++ [r] else acc
          | none => acc ++ [r])
        acc =
      acc ++ rs.filter (fun r =>
        match parseIso r.date with
        | some d => decide (threshold ≤ d)
        | none => true) := by
  intro rs
  induction rs with
  | nil => intro acc; simp
  | cons r rest ih =>
    intro acc
    simp only [List.foldl_cons, List.filter_cons]
    cases hp : parseIso r.date with
    | none => simp [hp, ih]
    | some d =>
      by_cases hd : threshold ≤ d
      · simp [hp, hd, ih]
      · simp [hp, hd, ih]

/-- The window filter is exactly a `List.filter` with the fail-open
predicate. -/
theorem filterByWindow_eq_filter (parseIso : String → Option Int) (threshold : Int)
    (rs : List AppReview) :
    filterByWindow parseIso threshold rs =
      rs.filter (fun r =>
        match parseIso r.date with
        | some d => decide (threshold ≤ d)
        | none => true) := by
  unfold filterByWindow
  simpa using filterByWindow_append parseIso threshold rs []

/-- C7: a record of the fetchers' concatenated output whose date does not
parse is kept by the time-window filter (fail-open), and a record whose
date parses to `d` is kept iff `d` is at or after the threshold
`now - windowHours`. -/
theorem C7_window_filter_fail_open (parseIso : String → Option Int) (threshold : Int)
    (rs : List AppReview) (r : AppReview) (hr : r ∈ rs) :
    (parseIso r.date = none → r ∈ filterByWindow parseIso threshold rs) ∧
    (∀ d, parseIso r.date = some d →
      (r ∈ filterByWindow parseIso threshold rs ↔ threshold ≤ d)) := by
  have heq := filterByWindow_eq_filter parseIso threshold rs
  constructor
  · intro hnone
    rw [heq, List.mem_filter]
    exact ⟨hr, by simp [hnone]⟩
  · intro d hd
    rw [heq, List.mem_filter]
    constructor
    · intro hmem
      have hpred := hmem.2
      rw [hd] at hpred
      simpa using hpred
    · intro hle
      exact ⟨hr, by simp [hd, hle]⟩

/-- Review with an unparsable date used in the C7 witness. -/
def c7Bad : AppReview :=
  ⟨"bad", "a", 3, none, "c", "not-a-date", "google", some 0, none⟩

/-- Review with a parsable in-window date used in the C7 witness. -/
def c7Good : AppReview :=
  ⟨"good", "b", 4, none, "c", "2024-01-02T00:00:00", "google", some 0, none⟩

/-- Timestamp parser of the C7 witness. -/
def c7Parse : String → Option Int :=
  fun s => if s = "2024-01-02T00:00:00" then some 100 else none

/-- Witness for C7: the unparsable-dated review is kept, and the parsable
one is kept because its date meets the threshold. -/
theorem C7_window_filter_fail_open_witness :
    c7Bad ∈ filterByWindow c7Parse 50 [c7Good, c7Bad] ∧
    c7Good ∈ filterByWindow c7Parse 50 [c7Good, c7Bad] :=
  ⟨(C7_window_filter_fail_open c7Parse 50 [c7Good, c7Bad] c7Bad (by decide)).1 (by decide),
   ((C7_window_filter_fail_open c7Parse 50 [c7Good, c7Bad] c7Good (by decide)).2
      100 (by decide)).mpr (by decide)⟩

/-- Membership in the keys of an association list decides a successful
lookup. -/
theorem lookup_isSome_iff (d : List (String × Nat)) (k : String) :
    (d.lookup k).isSome = true ↔ k ∈ d.map Prod.fst := by
  induction d with
  | nil => simp [List.lookup]
  | cons p rest ih =>
    simp only [List.lookup, List.map_cons, List.mem_cons]
    by_cases h : k = p.1
    · simp [h]
    · have hb : (k == p.1) = false := by simp [h]
      simp [hb, ih, h]

/-- Bumping a present key succeeds and preserves the key set. -/
theorem distIncr_ok (d : List (String × Nat)) (k : String)
    (hk : k ∈ d.map Prod.fst) :
    ∃ d', distIncr d k = .ok d' ∧ d'.map Prod.fst = d.map Prod.fst := by
  refine ⟨d.map (fun p => if p.1 = k then (p.1, p.2 + 1) else p), ?_, ?_⟩
  · unfold distIncr
    rw [if_pos ((lookup_isSome_iff d k).mpr hk)]
  · rw [List.map_map]
    apply List.map_congr_left
    intro p _
    by_cases h : p.1 = k <;> simp [h]

/-- A rating between 1 and 5 hits one of the histogram's five keys. -/
theorem ratingKey_mem (n : Nat) (h1 : 1 ≤ n) (h2 : n ≤ 5) :
    toString n ∈ ["1", "2", "3", "4", "5"] := by
  interval_cases n <;> decide

/-- `Except.ok` bound into a continuation is the continuation. -/
theorem except_ok_bind {ε α β : Type _} (a : α) (f : α → Except ε β) :
    (Except.ok a >>= f : Except ε β) = f a := rfl

/-- `pure` on `Except` is `ok`. -/
theorem except_pure_eq_ok {ε α : Type _} (a : α) : (pure a : Except ε α) = .ok a := rfl

/-- The statistics fold never raises on reviews whose ratings lie in
1..5. -/
theorem statsFold_ok (rs : List AppReview) :
    ∀ (d : List (String × Nat)) (n : Nat),
      d.map Prod.fst = ["1", "2", "3", "4", "5"] →
      (∀ r ∈ rs, 1 ≤ r.rating ∧ r.rating ≤ 5) →
      ∃ res, rs.foldlM statsStep (d, n) = .ok res := by
  induction rs with
  | nil => intro d n _ _; exact ⟨(d, n), rfl⟩
  | cons r rest ih =>
    intro d n hkeys hval
    have hr := hval r (List.mem_cons_self _ _)
    have hk : toString r.rating ∈ d.map Prod.fst := by
      rw [hkeys]; exact ratingKey_mem _ hr.1 hr.2
    obtain ⟨d', hd', hkeys'⟩ := distIncr_ok d _ hk
    have hstep : statsStep (d, n) r = .ok (d', n + r.rating) := by
      unfold statsStep
      rw [hd']
      rfl
    obtain ⟨res, hres⟩ := ih d' (n + r.rating) (by rw [hkeys', hkeys])
      (fun x hx => hval x (List.mem_cons_of_mem _ hx))
    refine ⟨res, ?_⟩
    rw [List.foldlM_cons, hstep, except_ok_bind]
    exact hres

/-- `_calculate_stats` never raises on reviews whose ratings lie in
1..5. -/
theorem calculate_stats_ok (rs : List AppReview) (g a t : Nat)
    (h : ∀ r ∈ rs, 1 ≤ r.rating ∧ r.rating ≤ 5) :
    ∃ s, calculate_stats rs g a t = .ok s := by
  by_cases hrs : rs = []
  · subst hrs; exact ⟨_, rfl⟩
  · obtain ⟨res, hres⟩ := statsFold_ok rs initialRatingDist 0 (by decide) h
    refine ⟨⟨rs.length, round2 ((res.2 : ℚ) / (rs.length : ℚ)), res.1, g, a, t⟩, ?_⟩
    unfold calculate_stats
    rw [if_neg hrs, hres, except_ok_bind]
    rfl

/-- Every entry of the mock data table carries a rating in 1..5 and a
source that is `google` or `apple`. -/
theorem mockEntries_valid :
    ∀ e ∈ mockEntries,
      (1 ≤ e.rating ∧ e.rating ≤ 5) ∧ (e.source = "google" ∨ e.source = "apple") := by
  decide

/-- With a non-empty `randint` range, a mock review construction succeeds
and keeps the entry's rating and source. -/
theorem mkMockReview_ok (env : WexEnv) (hours idx : Nat) (e : MockEntry)
    (hh : 1 ≤ hours) (he : 1 ≤ e.rating ∧ e.rating ≤ 5) :
    ∃ r, mkMockReview env hours idx e = .ok r ∧
      (1 ≤ r.rating ∧ r.rating ≤ 5) ∧ r.source = e.source := by
  unfold mkMockReview randIntOneTo
  rw [if_pos hh, except_ok_bind]
  unfold mkAppReview
  rw [if_pos he]
  exact ⟨_, rfl, he, rfl⟩

/-- The inner mock fold (one pass over the data table) succeeds for a
non-empty window and emits only reviews with valid ratings and
google/apple sources. -/
theorem mockInnerFold_ok (env : WexEnv) (hours : Nat) (hh : 1 ≤ hours) :
    ∀ (es : List MockEntry),
      (∀ e ∈ es, (1 ≤ e.rating ∧ e.rating ≤ 5) ∧ (e.source = "google" ∨ e.source = "apple")) →
      ∀ acc : List AppReview,
        (∀ r ∈ acc, (1 ≤ r.rating ∧ r.rating ≤ 5) ∧ (r.source = "google" ∨ r.source = "apple")) →
        ∃ l, (es.foldlM
            (fun (acc : List AppReview) e => do
              let r ← mkMockReview env hours acc.length e
              pure (acc ++ [r]))
            acc) = .ok l ∧
          ∀ r ∈ l, (1 ≤ r.rating ∧ r.rating ≤ 5) ∧ (r.source = "google" ∨ r.source = "apple") := by
  intro es
  induction es with
  | nil => intro _ acc hacc; exact ⟨acc, rfl, hacc⟩
  | cons e rest ih =>
    intro hes acc hacc
    obtain ⟨r, hr, hrv, hrs⟩ :=
      mkMockReview_ok env hours acc.length e hh (hes e (List.mem_cons_self _ _)).1
    have hnext : ∀ x ∈ acc ++ [r],
        (1 ≤ x.rating ∧ x.rating ≤ 5) ∧ (x.source = "google" ∨ x.source = "apple") := by
      intro x hx
      rcases List.mem_append.mp hx with hx | hx
      · exact hacc x hx
      · rw [List.mem_singleton] at hx
        subst hx
        exact ⟨hrv, hrs ▸ (hes e (List.mem_cons_self _ _)).2⟩
    obtain ⟨l, hl, hlv⟩ := ih (fun x hx => hes x (List.mem_cons_of_mem _ hx)) (acc ++ [r]) hnext
    refine ⟨l, ?_, hlv⟩
    simp only [List.foldlM_cons]
    rw [hr, except_ok_bind, except_pure_eq_ok, except_ok_bind]
    exact hl

/-- For a non-empty window the full mock list construction succeeds, and
every emitted review has a rating in 1..5 and a google/apple source. -/
theorem mockAllReviews_ok (env : WexEnv) (hours : Nat) (hh : 1 ≤ hours) :
    ∃ l, mockAllReviews env hours = .ok l ∧
      ∀ r ∈ l, (1 ≤ r.rating ∧ r.rating ≤ 5) ∧ (r.source = "google" ∨ r.source = "apple") := by
  obtain ⟨l1, h1, v1⟩ := mockInnerFold_ok env hours hh mockEntries mockEntries_valid [] (by simp)
  obtain ⟨l2, h2, v2⟩ := mockInnerFold_ok env hours hh mockEntries mockEntries_valid l1 v1
  obtain ⟨l3, h3, v3⟩ := mockInnerFold_ok env hours hh mockEntries mockEntries_valid l2 v2
  refine ⟨l3, ?_, v3⟩
  unfold mockAllReviews
  rw [show List.range 3 = [0, 1, 2] from rfl]
  simp only [List.foldlM_cons, List.foldlM_nil]
  rw [h1, except_ok_bind, h2, except_ok_bind, h3]
  rfl

/-- With an empty window the mock generator raises: `random.randint(1, 0)`
has an empty range, so the very first mock record fails. -/
theorem mockAllReviews_zero (env : WexEnv) : mockAllReviews env 0 = .error () := rfl

/-- Whatever list the mock construction returns, its reviews carry only
google/apple sources. -/
theorem mockAllReviews_sources (env : WexEnv) (hours : Nat) (l : List AppReview)
    (hall : mockAllReviews env hours = .ok l) :
    ∀ r ∈ l, r.source = "google" ∨ r.source = "apple" := by
  by_cases hh : 1 ≤ hours
  · obtain ⟨l', h', hp⟩ := mockAllReviews_ok env hours hh
    rw [hall] at h'
    cases h'
    exact fun r hr => (hp r hr).2
  · have h0 : hours = 0 := by omega
    subst h0
    rw [mockAllReviews_zero] at hall
    exact Except.noConfusion hall

/-- For a non-empty window `_get_mock_reviews` succeeds: every mock
construction passes validation and the statistics fold sees only ratings
in 1..5. -/
theorem getMockReviews_ok (env : WexEnv) (hours : Nat) (hh : 1 ≤ hours) :
    ∃ v, getMockReviews env hours = .ok v := by
  obtain ⟨l, hl, hv⟩ := mockAllReviews_ok env hours hh
  have hs : ∀ r ∈ sortByDateDesc l, 1 ≤ r.rating ∧ r.rating ≤ 5 := by
    intro r hrr
    unfold sortByDateDesc at hrr
    exact (hv r (List.mem_mergeSort.mp hrr)).1
  obtain ⟨s, hstats⟩ := calculate_stats_ok (sortByDateDesc l)
    ((sortByDateDesc l).filter (fun r => r.source == "google")).length
    ((sortByDateDesc l).filter (fun r => r.source == "apple")).length 0 hs
  refine ⟨⟨sortByDateDesc l, s, env.nowIso, hours⟩, ?_⟩
  unfold getMockReviews
  rw [hl, except_ok_bind]
  dsimp only
  rw [hstats, except_ok_bind]
  rfl

/-- Environment of the C6 counter-scenario and witness: the Google HTTP
client fails to construct, so the aggregation body raises. -/
def c6FailEnv : WexEnv :=
  ⟨"t", 0, false, true, true, fun _ => .fail, fun _ => .fail, fun _ => .fail,
   fun _ => none, fun _ => "d", fun _ => 0, fun _ => 0⟩

/-- Counterexample to C6 as stated: with the credential configured,
`hours = 0` and a failing aggregation body, the mock fallback's
`random.randint(1, 0)` raises inside the `except` handler and the error
propagates to the caller — and it is not the configuration error — so a
missing credential is not the single error condition. -/
theorem C6_zero_hours_error_despite_key :
    apiKeyMissing (some "key") = false ∧
    wexGetReviews (some "key") c6FailEnv 0 20 = .error .uncaught ∧
    WexError.uncaught ≠ WexError.valueError := by
  exact ⟨by decide, by decide, by decide⟩

/-- C6 (amended): for every call with a positive window — the only window
the validated HTTP layer produces — `WextractorService.get_reviews`
surfaces an error to its caller iff the API credential is not configured,
and that error is precisely the configuration `ValueError`; once the
credential is present the call always returns a result (any internal
failure falls back to the mock data).  With a zero window the mock
fallback itself can raise (see the counterexample). -/
theorem C6_amended_config_error_iff_key_missing (apiKey : Option String) (env : WexEnv)
    (hours maxTpPages : Nat) (hh : 1 ≤ hours) :
    ((∃ e, wexGetReviews apiKey env hours maxTpPages = .error e) ↔
      apiKeyMissing apiKey = true) ∧
    (wexGetReviews apiKey env hours maxTpPages = .error .valueError ↔
      apiKeyMissing apiKey = true) := by
  by_cases hkey : apiKeyMissing apiKey = true
  · have hres : wexGetReviews apiKey env hours maxTpPages = .error .valueError := by
      unfold wexGetReviews
      rw [if_pos hkey]
    exact ⟨⟨fun _ => hkey, fun _ => ⟨.valueError, hres⟩⟩, ⟨fun _ => hkey, fun _ => hres⟩⟩
  · have hkey' : apiKeyMissing apiKey = false := by
      simpa using hkey
    have hok : ∃ v, wexGetReviews apiKey env hours maxTpPages = .ok v := by
      unfold wexGetReviews
      rw [if_neg (by simp [hkey'])]
      cases hbody : wexGetReviewsBody env hours maxTpPages with
      | ok r => exact ⟨r, rfl⟩
      | error e =>
        obtain ⟨m, hm⟩ := getMockReviews_ok env hours hh
        rw [hm]
        exact ⟨m, rfl⟩
    obtain ⟨v, hv⟩ := hok
    constructor
    · constructor
      · rintro ⟨e, he⟩
        rw [hv] at he
        exact Except.noConfusion he
      · intro h
        rw [h] at hkey'
        exact Bool.noConfusion hkey'
    · constructor
      · intro he
        rw [hv] at he
        exact Except.noConfusion he
      · intro h
        rw [h] at hkey'
        exact Bool.noConfusion hkey'

/-- Witness for the amended C6 at a concrete configured key, environment
and window. -/
theorem C6_amended_config_error_iff_key_missing_witness :
    ((∃ e, wexGetReviews (some "key") c6FailEnv 24 20 = .error e) ↔
      apiKeyMissing (some "key") = true) ∧
    (wexGetReviews (some "key") c6FailEnv 24 20 = .error .valueError ↔
      apiKeyMissing (some "key") = true) :=
  C6_amended_config_error_iff_key_missing (some "key") c6FailEnv 24 20 (by decide)

/-- Environment of the C9 counter-scenario: the Google HTTP client fails
to construct, so the aggregation body raises. -/
def c9FailEnv : WexEnv :=
  ⟨"t", 0, false, true, true, fun _ => .fail, fun _ => .fail, fun _ => .fail,
   fun _ => none, fun _ => "d", fun _ => 0, fun _ => 0⟩

/-- Counterexample to C9 as stated: with the credential configured but a
zero window, a failing aggregation body makes the call propagate an
exception — `random.randint(1, 0)` raises inside the `except` handler —
instead of returning a mock result. -/
theorem C9_zero_hours_exception_propagates :
    apiKeyMissing (some "key") = false ∧
    (wexGetReviewsBody c9FailEnv 0 20).isOk = false ∧
    (wexGetReviews (some "key") c9FailEnv 0 20).isOk = false := by
  exact ⟨by decide, by decide, by decide⟩

/-- C9 (amended): with the credential configured and a positive window,
`WextractorService.get_reviews` never propagates an exception — it always
returns a result — and whenever the aggregation body raises, the returned
result is exactly the mock data set (not the partial real data).  With a
zero window the mock generator itself raises (see the counterexample). -/
theorem C9_amended_configured_never_raises (apiKey : Option String) (env : WexEnv)
    (hours maxTpPages : Nat) (hconf : apiKeyMissing apiKey = false) (hh : 1 ≤ hours) :
    (∃ v, wexGetReviews apiKey env hours maxTpPages = .ok v) ∧
    (∀ e, wexGetReviewsBody env hours maxTpPages = .error e →
      ∀ m, getMockReviews env hours = .ok m →
        wexGetReviews apiKey env hours maxTpPages = .ok m) := by
  constructor
  · unfold wexGetReviews
    rw [if_neg (by simp [hconf])]
    cases hbody : wexGetReviewsBody env hours maxTpPages with
    | ok r => exact ⟨r, rfl⟩
    | error e =>
      obtain ⟨m, hm⟩ := getMockReviews_ok env hours hh
      rw [hm]
      exact ⟨m, rfl⟩
  · intro e hbody m hm
    unfold wexGetReviews
    rw [if_neg (by simp [hconf]), hbody, hm]

/-- Environment of the C9 witness (same failing-body shape, used with a
positive window). -/
def c9Env : WexEnv :=
  ⟨"t", 0, false, true, true, fun _ => .fail, fun _ => .fail, fun _ => .fail,
   fun _ => none, fun _ => "d", fun _ => 0, fun _ => 0⟩

/-- Witness for the amended C9: with a configured key, a 24-hour window
and a failing aggregation body, the call returns exactly the mock
result. -/
theorem C9_amended_configured_never_raises_witness :
    ∃ m, getMockReviews c9Env 24 = .ok m ∧
      wexGetReviews (some "key") c9Env 24 20 = .ok m := by
  obtain ⟨m, hm⟩ := getMockReviews_ok c9Env 24 (by decide)
  exact ⟨m, hm,
    (C9_amended_configured_never_raises (some "key") c9Env 24 20 rfl (by decide)).2 () rfl m hm⟩

/-- Bumping a key that is absent from an association list changes
nothing. -/
theorem map_bump_of_not_mem (d : List (String × Nat)) (k : String)
    (h : k ∉ d.map Prod.fst) :
    d.map (fun p => if p.1 = k then (p.1, p.2 + 1) else p) = d := by
  induction d with
  | nil => rfl
  | cons p rest ih =>
    simp only [List.map_cons, List.mem_cons] at h ⊢
    rw [if_neg (fun hh => h (Or.inl hh.symm)), ih (fun hh => h (Or.inr hh))]

/-- Bumping a present key of a duplicate-free association list adds
exactly one to the sum of its values. -/
theorem distSum_bump (d : List (String × Nat)) (k : String)
    (hnodup : (d.map Prod.fst).Nodup) (hk : k ∈ d.map Prod.fst) :
    distSum (d.map (fun p => if p.1 = k then (p.1, p.2 + 1) else p)) = distSum d + 1 := by
  induction d with
  | nil => simp at hk
  | cons p rest ih =>
    simp only [List.map_cons, List.nodup_cons] at hnodup
    simp only [List.map_cons, List.mem_cons] at hk
    by_cases hp : p.1 = k
    · have hkr : k ∉ rest.map Prod.fst := hp ▸ hnodup.1
      simp only [List.map_cons, if_pos hp]
      rw [map_bump_of_not_mem rest k hkr]
      simp only [distSum, List.map_cons, List.sum_cons]
      omega
    · have hk' : k ∈ rest.map Prod.fst := by
        rcases hk with hk | hk
        · exact absurd hk.symm hp
        · exact hk
      simp only [List.map_cons, if_neg hp]
      have := ih hnodup.2 hk'
      simp only [distSum, List.map_cons, List.sum_cons] at this ⊢
      omega

/-- A successful `distIncr` on a duplicate-free histogram preserves the
key set and adds one to the value sum. -/
theorem distIncr_ok_props (d : List (String × Nat)) (k : String)
    (d' : List (String × Nat)) (hnodup : (d.map Prod.fst).Nodup)
    (h : distIncr d k = .ok d') :
    d'.map Prod.fst = d.map Prod.fst ∧ distSum d' = distSum d + 1 := by
  unfold distIncr at h
  by_cases hl : (d.lookup k).isSome = true
  · rw [if_pos hl] at h
    cases h
    constructor
    · rw [List.map_map]
      apply List.map_congr_left
      intro p _
      by_cases hp : p.1 = k <;> simp [hp]
    · exact distSum_bump d k hnodup ((lookup_isSome_iff d k).mp hl)
  · rw [if_neg hl] at h
    exact Except.noConfusion h

/-- A successful statistics fold preserves the histogram's key set and
increments its value sum once per review. -/
theorem statsFold_sum (rs : List AppReview) :
    ∀ (d : List (String × Nat)) (n : Nat) res, (d.map Prod.fst).Nodup →
      rs.foldlM statsStep (d, n) = .ok res →
      res.1.map Prod.fst = d.map Prod.fst ∧ distSum res.1 = distSum d + rs.length := by
  induction rs with
  | nil =>
    intro d n res _ h
    rw [List.foldlM_nil] at h
    rw [except_pure_eq_ok] at h
    cases h
    exact ⟨rfl, rfl⟩
  | cons r rest ih =>
    intro d n res hnodup h
    rw [List.foldlM_cons] at h
    cases hs : statsStep (d, n) r with
    | error e =>
      rw [hs] at h
      exact Except.noConfusion h
    | ok st =>
      rw [hs, except_ok_bind] at h
      have hstep : distIncr d (toString r.rating) = .ok st.1 := by
        unfold statsStep at hs
        cases hinc : distIncr d (toString r.rating) with
        | error e =>
          rw [hinc] at hs
          exact Except.noConfusion hs
        | ok dd =>
          rw [hinc, except_ok_bind, except_pure_eq_ok] at hs
          rw [← Except.ok.inj hs]
      obtain ⟨hkeys, hsum⟩ := distIncr_ok_props d _ st.1 hnodup hstep
      obtain ⟨hkeys', hsum'⟩ := ih st.1 st.2 res (hkeys ▸ hnodup) h
      refine ⟨by rw [hkeys', hkeys], ?_⟩
      rw [hsum', hsum, List.length_cons]
      omega

/-- Shape of a successful `_calculate_stats` result: the histogram sums
to the total, and the counts are either the all-zero empty case or the
caller's counts with the total equal to the review count. -/
theorem calculate_stats_shape (rs : List AppReview) (g a t : Nat) (s : ReviewStats)
    (h : calculate_stats rs g a t = .ok s) :
    distSum s.rating_distribution = s.total_reviews ∧
    ((s.total_reviews = 0 ∧ s.google_reviews = 0 ∧ s.apple_reviews = 0 ∧
        s.trustpilot_reviews = 0) ∨
     (s.total_reviews = rs.length ∧ s.google_reviews = g ∧ s.apple_reviews = a ∧
        s.trustpilot_reviews = t)) := by
  unfold calculate_stats at h
  by_cases hrs : rs = []
  · rw [if_pos hrs] at h
    cases h
    exact ⟨by decide, Or.inl ⟨rfl, rfl, rfl, rfl⟩⟩
  · rw [if_neg hrs] at h
    cases hfold : rs.foldlM statsStep (initialRatingDist, 0) with
    | error e =>
      rw [hfold] at h
      exact Except.noConfusion h
    | ok res =>
      rw [hfold, except_ok_bind] at h
      dsimp only at h
      rw [except_pure_eq_ok] at h
      cases h
      obtain ⟨_, hsum⟩ := statsFold_sum rs initialRatingDist 0 res (by decide) hfold
      refine ⟨?_, Or.inr ⟨rfl, rfl, rfl, rfl⟩⟩
      show distSum res.1 = rs.length
      rw [hsum, show distSum initialRatingDist = 0 from rfl]
      omega

/-- A list whose records carry one of the three source labels is counted
exactly once over by the three per-source filters. -/
theorem filter_three_sources (l : List AppReview)
    (h : ∀ r ∈ l, r.source = "google" ∨ r.source = "apple" ∨ r.source = "trustpilot") :
    (l.filter (fun r => r.source == "google")).length +
      (l.filter (fun r => r.source == "apple")).length +
      (l.filter (fun r => r.source == "trustpilot")).length = l.length := by
  induction l with
  | nil => rfl
  | cons r rest ih =>
    have hr := h r (List.mem_cons_self _ _)
    have ihr := ih (fun x hx => h x (List.mem_cons_of_mem _ hx))
    rcases hr with h1 | h1 | h1
    · rw [List.filter_cons_of_pos (by show (r.source == "google") = true; rw [h1]; decide),
        List.filter_cons_of_neg (by show ¬(r.source == "apple") = true; rw [h1]; decide),
        List.filter_cons_of_neg (by show ¬(r.source == "trustpilot") = true; rw [h1]; decide)]
      simp only [List.length_cons]
      omega
    · rw [List.filter_cons_of_neg (by show ¬(r.source == "google") = true; rw [h1]; decide),
        List.filter_cons_of_pos (by show (r.source == "apple") = true; rw [h1]; decide),
        List.filter_cons_of_neg (by show ¬(r.source == "trustpilot") = true; rw [h1]; decide)]
      simp only [List.length_cons]
      omega
    · rw [List.filter_cons_of_neg (by show ¬(r.source == "google") = true; rw [h1]; decide),
        List.filter_cons_of_neg (by show ¬(r.source == "apple") = true; rw [h1]; decide),
        List.filter_cons_of_pos (by show (r.source == "trustpilot") = true; rw [h1]; decide)]
      simp only [List.length_cons]
      omega

/-- A successful Google fetch yields only `google`-labelled records. -/
theorem fetchGoogleReviews_ok_sources (nowIso : String) (ci : Bool)
    (u : Nat → PageResult) (l : List AppReview)
    (h : fetchGoogleReviews nowIso ci u = .ok l) :
    ∀ r ∈ l, r.source = "google" := by
  unfold fetchGoogleReviews at h
  cases ci with
  | false => exact Except.noConfusion h
  | true =>
    cases h
    exact offsetFetchLoop_prop _ _ u (parseGoogleReviews_source nowIso) 5 0 [] [] (by simp)

/-- A successful Apple fetch yields only `apple`-labelled records. -/
theorem fetchAppleReviews_ok_sources (nowIso : String) (ci : Bool)
    (u : Nat → PageResult) (l : List AppReview)
    (h : fetchAppleReviews nowIso ci u = .ok l) :
    ∀ r ∈ l, r.source = "apple" := by
  unfold fetchAppleReviews at h
  cases ci with
  | false => exact Except.noConfusion h
  | true =>
    cases h
    exact offsetFetchLoop_prop _ _ u (parseAppleReviews_source nowIso) 5 0 [] [] (by simp)

/-- A successful Trustpilot fetch yields only `trustpilot`-labelled
records. -/
theorem fetchTrustpilotReviews_ok_sources (nowIso : String) (ci : Bool)
    (u : Nat → TpPageResult) (maxPages : Nat) (l : List AppReview)
    (h : fetchTrustpilotReviews nowIso ci u maxPages = .ok l) :
    ∀ r ∈ l, r.source = "trustpilot" := by
  unfold fetchTrustpilotReviews at h
  cases ci with
  | false => exact Except.noConfusion h
  | true =>
    cases h
    exact tpFetchLoop_prop _ nowIso u (parseTrustpilotReviews_source nowIso)
      maxPages 0 [] [] (by simp)

/-- Invariants of the statistics-then-result tail shared by the real
aggregation path: with per-source counts computed as the three filters of
the same list, a successful run satisfies both stats invariants. -/
theorem statsBind_invariants (rs : List AppReview) (fa : String) (hrs : Nat)
    (r : WexResult)
    (hsources : ∀ x ∈ rs, x.source = "google" ∨ x.source = "apple" ∨ x.source = "trustpilot")
    (h : (calculate_stats rs
        (rs.filter (fun x => x.source == "google")).length
        (rs.filter (fun x => x.source == "apple")).length
        (rs.filter (fun x => x.source == "trustpilot")).length >>=
          fun stats => pure ⟨rs, stats, fa, hrs⟩) = .ok r) :
    distSum r.stats.rating_distribution = r.stats.total_reviews ∧
    r.stats.google_reviews + r.stats.apple_reviews + r.stats.trustpilot_reviews =
      r.stats.total_reviews := by
  cases hstats : calculate_stats rs
      (rs.filter (fun x => x.source == "google")).length
      (rs.filter (fun x => x.source == "apple")).length
      (rs.filter (fun x => x.source == "trustpilot")).length with
  | error e =>
    rw [hstats] at h
    exact Except.noConfusion h
  | ok s =>
    rw [hstats, except_ok_bind, except_pure_eq_ok] at h
    cases h
    obtain ⟨hdist, hcounts⟩ := calculate_stats_shape _ _ _ _ _ hstats
    refine ⟨hdist, ?_⟩
    rcases hcounts with ⟨h0, h1, h2, h3⟩ | ⟨h0, h1, h2, h3⟩
    · simp only [h0, h1, h2, h3]
    · rw [h0, h1, h2, h3]
      exact filter_three_sources rs hsources

/-- Invariants of the statistics-then-result tail of the mock path: the
trustpilot count is the literal 0, which matches because no mock record is
a Trustpilot record. -/
theorem mockStatsBind_invariants (rs : List AppReview) (fa : String) (hrs : Nat)
    (r : WexResult)
    (hsources : ∀ x ∈ rs, x.source = "google" ∨ x.source = "apple")
    (h : (calculate_stats rs
        (rs.filter (fun x => x.source == "google")).length
        (rs.filter (fun x => x.source == "apple")).length 0 >>=
          fun stats => pure ⟨rs, stats, fa, hrs⟩) = .ok r) :
    distSum r.stats.rating_distribution = r.stats.total_reviews ∧
    r.stats.google_reviews + r.stats.apple_reviews + r.stats.trustpilot_reviews =
      r.stats.total_reviews := by
  cases hstats : calculate_stats rs
      (rs.filter (fun x => x.source == "google")).length
      (rs.filter (fun x => x.source == "apple")).length 0 with
  | error e =>
    rw [hstats] at h
    exact Except.noConfusion h
  | ok s =>
    rw [hstats, except_ok_bind, except_pure_eq_ok] at h
    cases h
    obtain ⟨hdist, hcounts⟩ := calculate_stats_shape _ _ _ _ _ hstats
    refine ⟨hdist, ?_⟩
    rcases hcounts with ⟨h0, h1, h2, h3⟩ | ⟨h0, h1, h2, h3⟩
    · simp only [h0, h1, h2, h3]
    · have htp : (rs.filter (fun x => x.source == "trustpilot")).length = 0 := by
        have : rs.filter (fun x => x.source == "trustpilot") = [] := by
          rw [List.filter_eq_nil_iff]
          intro x hx
          rcases hsources x hx with hs | hs <;> simp [hs]
        rw [this]
        rfl
      have hall := filter_three_sources rs
        (fun x hx => by rcases hsources x hx with hs | hs
                        · exact Or.inl hs
                        · exact Or.inr (Or.inl hs))
      rw [h0, h1, h2, h3]
      omega

/-- Every successful run of the aggregation body satisfies both stats
invariants: the per-source counts are the three filters of the sorted
list, and every record of that list carries one of the three source
labels. -/
theorem wexBody_stats_invariants (env : WexEnv) (hours maxTpPages : Nat)
    (r : WexResult) (h : wexGetReviewsBody env hours maxTpPages = .ok r) :
    distSum r.stats.rating_distribution = r.stats.total_reviews ∧
    r.stats.google_reviews + r.stats.apple_reviews + r.stats.trustpilot_reviews =
      r.stats.total_reviews := by
  unfold wexGetReviewsBody at h
  cases hg : fetchGoogleReviews env.nowIso env.googleClientInit env.googlePages with
  | error e => rw [hg] at h; exact Except.noConfusion h
  | ok gl =>
  rw [hg, except_ok_bind] at h
  cases ha : fetchAppleReviews env.nowIso env.appleClientInit env.applePages with
  | error e => rw [ha] at h; exact Except.noConfusion h
  | ok al =>
  rw [ha, except_ok_bind] at h
  cases ht : fetchTrustpilotReviews env.nowIso env.tpClientInit env.tpPages maxTpPages with
  | error e => rw [ht] at h; exact Except.noConfusion h
  | ok tl =>
  rw [ht, except_ok_bind] at h
  dsimp only at h
  have hsrc : ∀ x ∈ sortByDateDesc (filterByWindow env.parseIso
      (env.now - (hours : Int) * 3600) (gl ++ al ++ tl)),
      x.source = "google" ∨ x.source = "apple" ∨ x.source = "trustpilot" := by
    intro x hx
    unfold sortByDateDesc at hx
    have hx2 : x ∈ filterByWindow env.parseIso (env.now - (hours : Int) * 3600)
        (gl ++ al ++ tl) := List.mem_mergeSort.mp hx
    rw [filterByWindow_eq_filter] at hx2
    have hx3 : x ∈ gl ++ al ++ tl := (List.mem_filter.mp hx2).1
    rcases List.mem_append.mp hx3 with hx4 | hx4
    · rcases List.mem_append.mp hx4 with hx5 | hx5
      · exact Or.inl (fetchGoogleReviews_ok_sources _ _ _ _ hg x hx5)
      · exact Or.inr (Or.inl (fetchAppleReviews_ok_sources _ _ _ _ ha x hx5))
    · exact Or.inr (Or.inr (fetchTrustpilotReviews_ok_sources _ _ _ _ _ ht x hx4))
  exact statsBind_invariants _ _ _ _ hsrc h

/-- Every successful mock result satisfies both stats invariants. -/
theorem getMockReviews_stats_invariants (env : WexEnv) (hours : Nat)
    (m : WexResult) (h : getMockReviews env hours = .ok m) :
    distSum m.stats.rating_distribution = m.stats.total_reviews ∧
    m.stats.google_reviews + m.stats.apple_reviews + m.stats.trustpilot_reviews =
      m.stats.total_reviews := by
  unfold getMockReviews at h
  cases hall : mockAllReviews env hours with
  | error e => rw [hall] at h; exact Except.noConfusion h
  | ok l =>
    rw [hall, except_ok_bind] at h
    dsimp only at h
    have hsrc : ∀ x ∈ sortByDateDesc l, x.source = "google" ∨ x.source = "apple" := by
      intro x hx
      unfold sortByDateDesc at hx
      exact mockAllReviews_sources env hours l hall x (List.mem_mergeSort.mp hx)
    exact mockStatsBind_invariants _ _ _ _ hsrc h

/-- C1: every `ReviewStats` value an aggregation run actually produces —
any result `WextractorService.get_reviews` returns, whether from the real
fetch path or the mock fallback, with or without a later source filter
(the review service's source-filter stats rewrite is unreachable, since
the fresh-fetch call before it always raises the keyword-binding
`TypeError` modelled above) — satisfies both invariants: the five
histogram counts sum to `totalReviews`, and the three per-source counts
sum to `totalReviews`. -/
theorem C1_aggregation_stats_invariants (apiKey : Option String) (env : WexEnv)
    (hours maxTpPages : Nat) (r : WexResult)
    (hr : wexGetReviews apiKey env hours maxTpPages = .ok r) :
    distSum r.stats.rating_distribution = r.stats.total_reviews ∧
    r.stats.google_reviews + r.stats.apple_reviews + r.stats.trustpilot_reviews =
      r.stats.total_reviews := by
  unfold wexGetReviews at hr
  by_cases hkey : apiKeyMissing apiKey = true
  · rw [if_pos hkey] at hr
    exact Except.noConfusion hr
  · rw [if_neg hkey] at hr
    cases hbody : wexGetReviewsBody env hours maxTpPages with
    | ok r' =>
      rw [hbody] at hr
      cases hr
      exact wexBody_stats_invariants env hours maxTpPages _ hbody
    | error e =>
      rw [hbody] at hr
      cases hmock : getMockReviews env hours with
      | ok m =>
        rw [hmock] at hr
        cases hr
        exact getMockReviews_stats_invariants env hours _ hmock
      | error e2 =>
        rw [hmock] at hr
        exact Except.noConfusion hr

/-- Environment of the C1 witness: every page request fails, so the run
completes with an empty review set and all-zero statistics. -/
def c1Env : WexEnv :=
  ⟨"t", 0, true, true, true, fun _ => .fail, fun _ => .fail, fun _ => .fail,
   fun _ => none, fun _ => "d", fun _ => 0, fun _ => 0⟩

/-- The window filter of the empty list is empty. -/
theorem filterByWindow_nil (parseIso : String → Option Int) (threshold : Int) :
    filterByWindow parseIso threshold [] = [] := rfl

/-- Witness for C1 at a concrete completed aggregation run. -/
theorem C1_aggregation_stats_invariants_witness :
    distSum (⟨[], ⟨0, 0, initialRatingDist, 0, 0, 0⟩, "t", 24⟩ : WexResult).stats.rating_distribution =
      (⟨[], ⟨0, 0, initialRatingDist, 0, 0, 0⟩, "t", 24⟩ : WexResult).stats.total_reviews ∧
    (⟨[], ⟨0, 0, initialRatingDist, 0, 0, 0⟩, "t", 24⟩ : WexResult).stats.google_reviews +
      (⟨[], ⟨0, 0, initialRatingDist, 0, 0, 0⟩, "t", 24⟩ : WexResult).stats.apple_reviews +
      (⟨[], ⟨0, 0, initialRatingDist, 0, 0, 0⟩, "t", 24⟩ : WexResult).stats.trustpilot_reviews =
      (⟨[], ⟨0, 0, initialRatingDist, 0, 0, 0⟩, "t", 24⟩ : WexResult).stats.total_reviews :=
  C1_aggregation_stats_invariants (some "k") c1Env 24 20
    ⟨[], ⟨0, 0, initialRatingDist, 0, 0, 0⟩, "t", 24⟩ (by
      have hbody : wexGetReviewsBody c1Env 24 20 =
          .ok ⟨[], ⟨0, 0, initialRatingDist, 0, 0, 0⟩, "t", 24⟩ := by
        unfold wexGetReviewsBody
        rw [show fetchGoogleReviews c1Env.nowIso c1Env.googleClientInit c1Env.googlePages =
            Except.ok [] from rfl, except_ok_bind]
        rw [show fetchAppleReviews c1Env.nowIso c1Env.appleClientInit c1Env.applePages =
            Except.ok [] from rfl, except_ok_bind]
        rw [show fetchTrustpilotReviews c1Env.nowIso c1Env.tpClientInit c1Env.tpPages 20 =
            Except.ok [] from rfl, except_ok_bind]
        dsimp only
        simp only [List.nil_append, filterByWindow_nil]
        rw [show sortByDateDesc ([] : List AppReview) = [] from List.mergeSort_nil]
        simp only [List.filter_nil, List.length_nil]
        rw [show calculate_stats ([] : List AppReview) 0 0 0 =
            Except.ok ⟨0, 0, initialRatingDist, 0, 0, 0⟩ from rfl, except_ok_bind]
        rfl
      unfold wexGetReviews
      rw [if_neg (by decide), hbody])

end RepHorizon
